import Mathlib

/-!
# Verification of the cursor-chronicle conversation-reconstruction and search core

This file gives a shallow embedding, in Lean, of the conversation-assembly,
message-decoding, attachment-extraction and search logic of the repository
(`src/cursor_chronicle/messages.py`, `src/cursor_chronicle/formatters.py`,
`src/search_history/searcher.py`), together with theorems settling the frozen
claims about that logic.

Modelling conventions:

* JSON values are modelled by the inductive `J`.  `json.loads` is modelled by
  the executable parser `parseJson` (objects are canonicalised to Python-dict
  form: first key position, last value).  JSON numbers are modelled as
  integers; the records the claims are about carry only integer numbers.
* A Python `None` is `J.null`; Python truthiness is `truthy`.
* A raw store row is a `(rowid, key, value)` triple; the store is the list of
  rows in rowid (insertion) order, as in the append-only `cursorDiskKV` table.
* Fallible Python code is embedded in `Except Unit`: `.error ()` models an
  uncaught exception (`TypeError` / `AttributeError` …), while exceptions the
  source catches (`json.JSONDecodeError`) are handled exactly where the source
  catches them.
-/

/-- A JSON value, as produced by `json.loads`.  Objects are kept as ordered
field lists; the parser canonicalises them to Python-dict form (first position
of a key, last value). -/
inductive J where
  | null
  | bool (b : Bool)
  | num (n : Int)
  | str (s : String)
  | arr (xs : List J)
  | obj (fields : List (String × J))

namespace J

/-- Python truthiness of a JSON value (`bool(x)`): `None`, `False`, `0`, `""`,
`[]`, `{}` are falsy, everything else truthy. -/
def truthy : J → Bool
  | .null => false
  | .bool b => b
  | .num n => n != 0
  | .str s => s != ""
  | .arr xs => !xs.isEmpty
  | .obj fs => !fs.isEmpty

/-- `d.get(k)` on a dict value: first binding of `k` (objects are canonical,
so at most one binding per key).  Non-dict values have no `get`; callers that
reach `.get` on a non-dict model the `AttributeError` themselves. -/
def get? : J → String → Option J
  | .obj fs, k => (fs.find? (fun p => p.1 == k)).map Prod.snd
  | _, _ => none

/-- `d.get(k, default)` on a dict value. -/
def getD (j : J) (k : String) (dflt : J) : J := (j.get? k).getD dflt

/-- Whether the value is a dict (`isinstance(x, dict)`). -/
def isObj : J → Bool
  | .obj _ => true
  | _ => false

/-- Whether the value is a string (`isinstance(x, str)`). -/
def isStr : J → Bool
  | .str _ => true
  | _ => false

end J

/-- Python `repr` of a string: single-quote wrapping with backslash escapes for
the characters the claims can meet. -/
def pyReprStrChar (c : Char) : String :=
  if c = '\\' then "\\\\"
  else if c = '\'' then String.mk ['\\', '\'']
  else if c = '\n' then "\\n"
  else if c = '\r' then "\\r"
  else if c = '\t' then "\\t"
  else String.singleton c

def pyReprStr (s : String) : String :=
  String.singleton '\'' ++ String.join (s.toList.map pyReprStrChar) ++
    String.singleton '\''

mutual

/-- Python `repr` of a JSON-shaped value. -/
def pyRepr : J → String
  | .null => "None"
  | .bool true => "True"
  | .bool false => "False"
  | .num n => toString n
  | .str s => pyReprStr s
  | .arr xs => "[" ++ pyReprList xs ++ "]"
  | .obj fs => "\x7b" ++ pyReprObj fs ++ "\x7d"

def pyReprList : List J → String
  | [] => ""
  | [x] => pyRepr x
  | x :: rest => pyRepr x ++ ", " ++ pyReprList rest

def pyReprObj : List (String × J) → String
  | [] => ""
  | [(k, v)] => pyReprStr k ++ ": " ++ pyRepr v
  | (k, v) :: rest => pyReprStr k ++ ": " ++ pyRepr v ++ ", " ++ pyReprObj rest

end

/-- Python `str()` of a JSON-shaped value (`str` of a string is the string
itself; containers fall back to `repr`). -/
def pyToStr : J → String
  | .str s => s
  | j => pyRepr j

/-- Python `str.strip()` (leading and trailing whitespace removed). -/
def pyStrip (s : String) : String :=
  String.mk (((s.toList.dropWhile Char.isWhitespace).reverse.dropWhile
    Char.isWhitespace).reverse)

/-- Substring test on character lists (`needle in hay` for Python strings). -/
def listContainsSub : List Char → List Char → Bool
  | hay, needle =>
    if needle.isPrefixOf hay then true
    else match hay with
      | [] => false
      | _ :: t => listContainsSub t needle

/-- Python `needle in hay` for strings. -/
def strContains (hay needle : String) : Bool :=
  listContainsSub hay.toList needle.toList

/-- `str.lower()` (the modelled record domain is ASCII). -/
def toLowerStr (s : String) : String := String.mk (s.toList.map Char.toLower)

/-- `s.startswith(pre)`. -/
def strStartsWith (s pre : String) : Bool := pre.toList.isPrefixOf s.toList

def splitOnCharAux (sep : Char) : List Char → List Char → List String
  | [], cur => [String.mk cur.reverse]
  | c :: rest, cur =>
    if c = sep then String.mk cur.reverse :: splitOnCharAux sep rest []
    else splitOnCharAux sep rest (c :: cur)

/-- Python `s.split(sep)` for a one-character separator. -/
def pySplit (s : String) (sep : Char) : List String :=
  splitOnCharAux sep s.toList []

/-- `re.compile(re.escape(query), flags).search(s)`: literal substring search,
optionally case-insensitive (`re.IGNORECASE`). -/
def patSearch (caseSensitive : Bool) (query s : String) : Bool :=
  if caseSensitive then strContains s query
  else strContains (toLowerStr s) (toLowerStr query)

/-! ## JSON parser (model of `json.loads`) -/

/-- JSON whitespace accepted between tokens. -/
def jsonWs (c : Char) : Bool := c = ' ' || c = '\t' || c = '\n' || c = '\r'

def skipWs (cs : List Char) : List Char := cs.dropWhile jsonWs

/-- Insert a binding with Python-dict semantics: an existing key keeps its
position but takes the new value; a new key is appended. -/
def dictInsert (fs : List (String × J)) (k : String) (v : J) :
    List (String × J) :=
  if fs.any (fun p => p.1 == k) then
    fs.map (fun p => if p.1 == k then (k, v) else p)
  else fs ++ [(k, v)]

def hexVal (c : Char) : Option Nat :=
  if '0' ≤ c ∧ c ≤ '9' then some (c.toNat - '0'.toNat)
  else if 'a' ≤ c ∧ c ≤ 'f' then some (c.toNat - 'a'.toNat + 10)
  else if 'A' ≤ c ∧ c ≤ 'F' then some (c.toNat - 'A'.toNat + 10)
  else none

/-- Parse the body of a JSON string literal (after the opening quote). -/
def parseStrBody (fuel : Nat) (cs : List Char) (acc : List Char) :
    Option (String × List Char) :=
  match fuel with
  | 0 => none
  | fuel + 1 =>
    match cs with
    | [] => none
    | '"' :: rest => some (String.mk acc.reverse, rest)
    | '\\' :: esc :: rest =>
      if esc = '"' then parseStrBody fuel rest ('"' :: acc)
      else if esc = '\\' then parseStrBody fuel rest ('\\' :: acc)
      else if esc = '/' then parseStrBody fuel rest ('/' :: acc)
      else if esc = 'b' then parseStrBody fuel rest (Char.ofNat 8 :: acc)
      else if esc = 'f' then parseStrBody fuel rest (Char.ofNat 12 :: acc)
      else if esc = 'n' then parseStrBody fuel rest ('\n' :: acc)
      else if esc = 'r' then parseStrBody fuel rest ('\r' :: acc)
      else if esc = 't' then parseStrBody fuel rest ('\t' :: acc)
      else if esc = 'u' then
        match rest with
        | h1 :: h2 :: h3 :: h4 :: rest' =>
          match hexVal h1, hexVal h2, hexVal h3, hexVal h4 with
          | some a, some b, some c, some d =>
            let n := ((a * 16 + b) * 16 + c) * 16 + d
            if 0xD800 ≤ n ∧ n ≤ 0xDFFF then none
            else parseStrBody fuel rest' (Char.ofNat n :: acc)
          | _, _, _, _ => none
        | _ => none
      else none
    | c :: rest =>
      if c.toNat < 0x20 then none
      else parseStrBody fuel rest (c :: acc)

def digitVal (c : Char) : Option Nat :=
  if '0' ≤ c ∧ c ≤ '9' then some (c.toNat - '0'.toNat) else none

def parseDigits (fuel : Nat) (cs : List Char) (acc : Nat) (seen : Bool) :
    Option (Nat × List Char) :=
  match fuel with
  | 0 => none
  | fuel + 1 =>
    match cs with
    | [] => if seen then some (acc, []) else none
    | c :: rest =>
      match digitVal c with
      | some d => parseDigits fuel rest (acc * 10 + d) true
      | none => if seen then some (acc, cs) else none

/-- A character that would continue a number literal into unsupported
territory (floats / exponents are outside the modelled integer domain). -/
def numCont (cs : List Char) : Bool :=
  match cs with
  | c :: _ => c = '.' || c = 'e' || c = 'E'
  | [] => false

mutual

/-- Parse one JSON value from the head of the character list. -/
def parseVal (fuel : Nat) (cs : List Char) : Option (J × List Char) :=
  match fuel with
  | 0 => none
  | fuel + 1 =>
    match skipWs cs with
    | 'n' :: 'u' :: 'l' :: 'l' :: rest => some (.null, rest)
    | 't' :: 'r' :: 'u' :: 'e' :: rest => some (.bool true, rest)
    | 'f' :: 'a' :: 'l' :: 's' :: 'e' :: rest => some (.bool false, rest)
    | '"' :: rest =>
      (parseStrBody fuel rest []).map (fun p => (.str p.1, p.2))
    | '[' :: rest =>
      (match skipWs rest with
       | ']' :: rest' => some (.arr [], rest')
       | other => parseArrItems fuel other [])
    | '{' :: rest =>
      (match skipWs rest with
       | '}' :: rest' => some (.obj [], rest')
       | other => parseObjItems fuel other [])
    | '-' :: rest =>
      (parseDigits fuel rest 0 false).bind (fun p =>
        if numCont p.2 then none else some (.num (-(p.1 : Int)), p.2))
    | c :: rest =>
      if (digitVal c).isSome then
        (parseDigits fuel (c :: rest) 0 false).bind (fun p =>
          if numCont p.2 then none else some (.num (p.1 : Int), p.2))
      else none
    | [] => none

/-- Parse the items of a non-empty JSON array. -/
def parseArrItems (fuel : Nat) (cs : List Char) (acc : List J) :
    Option (J × List Char) :=
  match fuel with
  | 0 => none
  | fuel + 1 =>
    (parseVal fuel cs).bind (fun p =>
      match skipWs p.2 with
      | ',' :: rest => parseArrItems fuel rest (p.1 :: acc)
      | ']' :: rest => some (.arr (p.1 :: acc).reverse, rest)
      | _ => none)

/-- Parse the items of a non-empty JSON object, with dict semantics. -/
def parseObjItems (fuel : Nat) (cs : List Char) (acc : List (String × J)) :
    Option (J × List Char) :=
  match fuel with
  | 0 => none
  | fuel + 1 =>
    match skipWs cs with
    | '"' :: rest =>
      (parseStrBody fuel rest []).bind (fun kp =>
        match skipWs kp.2 with
        | ':' :: rest' =>
          (parseVal fuel rest').bind (fun vp =>
            let acc' := dictInsert acc kp.1 vp.1
            match skipWs vp.2 with
            | ',' :: rest'' => parseObjItems fuel rest'' acc'
            | '}' :: rest'' => some (.obj acc', rest'')
            | _ => none)
        | _ => none)
    | _ => none

end

/-- Model of `json.loads`: `none` models `json.JSONDecodeError`. -/
def parseJson (s : String) : Option J :=
  match parseVal (2 * s.length + 4) s.toList with
  | some (j, rest) => if (skipWs rest).isEmpty then some j else none
  | none => none

/-! ## Base64 + UTF-8 decode (model of the `base64.b64decode(...).decode("utf-8")`
try-block in `_extract_thinking_content`) -/

def b64CharVal (c : Char) : Option Nat :=
  if 'A' ≤ c ∧ c ≤ 'Z' then some (c.toNat - 65)
  else if 'a' ≤ c ∧ c ≤ 'z' then some (c.toNat - 97 + 26)
  else if '0' ≤ c ∧ c ≤ '9' then some (c.toNat - 48 + 52)
  else if c = '+' then some 62
  else if c = '/' then some 63
  else none

/-- Decode base64 quads, with CPython's non-strict `a2b_base64` padding
behaviour: a padded quad ends the decode (later characters are ignored), and
leftover characters that do not fill a quad raise `Incorrect padding`. -/
def b64Quads : List Char → Option (List Nat)
  | [] => some []
  | a :: b :: c :: d :: rest =>
    match b64CharVal a, b64CharVal b with
    | some va, some vb =>
      if c = '=' then
        if d = '=' then some [va * 4 + vb / 16]
        else none
      else
        match b64CharVal c with
        | some vc =>
          if d = '=' then some [va * 4 + vb / 16, (vb % 16) * 16 + vc / 4]
          else
            match b64CharVal d with
            | some vd =>
              (b64Quads rest).map
                (fun r => (va * 4 + vb / 16) :: ((vb % 16) * 16 + vc / 4) ::
                  ((vc % 4) * 64 + vd) :: r)
            | none => none
        | none => none
    | _, _ => none
  | _ => none

/-- `base64.b64decode` on a Python string: encode to ASCII (non-ASCII raises),
discard characters outside the alphabet and `=`, then decode quads. -/
def b64decodePy (s : String) : Option (List Nat) :=
  if s.toList.all (fun c => c.toNat < 128) then
    b64Quads (s.toList.filter (fun c => (b64CharVal c).isSome || c = '='))
  else none

/-- Strict UTF-8 decoding of a byte list (model of `bytes.decode("utf-8")`):
rejects stray continuation bytes, overlong forms, surrogates and values above
`0x10FFFF`. -/
def utf8Decode : List Nat → Option (List Char)
  | [] => some []
  | b :: rest =>
    if b < 0x80 then (utf8Decode rest).map (fun cs => Char.ofNat b :: cs)
    else if b < 0xC2 then none
    else if b < 0xE0 then
      match rest with
      | c1 :: rest' =>
        if 0x80 ≤ c1 ∧ c1 < 0xC0 then
          (utf8Decode rest').map
            (fun cs => Char.ofNat ((b - 0xC0) * 64 + (c1 - 0x80)) :: cs)
        else none
      | [] => none
    else if b < 0xF0 then
      match rest with
      | c1 :: c2 :: rest' =>
        let lo1 : Nat := if b = 0xE0 then 0xA0 else 0x80
        let hi1 : Nat := if b = 0xED then 0x9F else 0xBF
        if lo1 ≤ c1 ∧ c1 ≤ hi1 ∧ 0x80 ≤ c2 ∧ c2 < 0xC0 then
          (utf8Decode rest').map
            (fun cs => Char.ofNat
              (((b - 0xE0) * 64 + (c1 - 0x80)) * 64 + (c2 - 0x80)) :: cs)
        else none
      | _ => none
    else if b < 0xF5 then
      match rest with
      | c1 :: c2 :: c3 :: rest' =>
        let lo1 : Nat := if b = 0xF0 then 0x90 else 0x80
        let hi1 : Nat := if b = 0xF4 then 0x8F else 0xBF
        if lo1 ≤ c1 ∧ c1 ≤ hi1 ∧ 0x80 ≤ c2 ∧ c2 < 0xC0 ∧ 0x80 ≤ c3 ∧ c3 < 0xC0 then
          (utf8Decode rest').map
            (fun cs => Char.ofNat
              ((((b - 0xF0) * 64 + (c1 - 0x80)) * 64 + (c2 - 0x80)) * 64 +
                (c3 - 0x80)) :: cs)
        else none
      | _ => none
    else none

/-- The whole try-block `base64.b64decode(s).decode("utf-8")`: `none` models
any raised exception (caught by the bare `except` in the source). -/
def pyB64DecodeUtf8 (s : String) : Option String :=
  (b64decodePy s).bind (fun bs => (utf8Decode bs).map String.mk)

/-! ## The record store (`cursorDiskKV` table) and its queries -/

/-- One row of the global `cursorDiskKV` table. -/
structure Row where
  rowid : Nat
  key : String
  value : String

/-- The store: all rows, listed in rowid (insertion) order, as in the
append-only table. -/
abbrev Store := List Row

/-- The `LENGTH(value) > 100` guard present in every query of the source.
SQLite `LENGTH` on a text value counts characters. -/
def rowLong (r : Row) : Bool := decide (100 < r.value.length)

/-- `SELECT value FROM cursorDiskKV WHERE key = ? AND LENGTH(value) > 100`,
`fetchone()`. -/
def qValueByKey (s : Store) (k : String) : Option String :=
  (s.find? (fun r => r.key == k && rowLong r)).map Row.value

/-- `SELECT rowid, key, value … WHERE key = ? AND LENGTH(value) > 100`,
`fetchone()`. -/
def qRowByKey (s : Store) (k : String) : Option Row :=
  s.find? (fun r => r.key == k && rowLong r)

/-- SQLite `LIKE 'prefix%'` (ASCII case-insensitive). -/
def sqlLike (pre k : String) : Bool := strStartsWith (toLowerStr k) (toLowerStr pre)

/-- `SELECT … WHERE key LIKE ? AND LENGTH(value) > 100 ORDER BY rowid`. -/
def qByLike (s : Store) (pre : String) : List Row :=
  s.filter (fun r => sqlLike pre r.key && rowLong r)

/-! ## Attachment extraction (`extract_attached_files`,
`extract_files_from_layout` in `cursor_chronicle/messages.py`) -/

/-- One extracted attachment reference.  Keys a given source does not set are
`J.null` (the source stores Python dicts with differing key sets; only `atype`
and `path` are inspected by any downstream logic covered here). -/
structure Attachment where
  atype : String
  path : J
  line : J := .null
  preview : J := .null
  content : J := .null
  lineRange : J := .null
  selection : J := .null

/-- Python `a or b` restricted to JSON-shaped values. -/
def pyOr (a b : J) : J := if a.truthy then a else b

/-- Python `for x in v` over a JSON-shaped value: lists yield elements,
strings yield one-character strings, dicts yield their keys; other values
raise `TypeError`. -/
def pyIter : J → Except Unit (List J)
  | .arr xs => .ok xs
  | .str s => .ok (s.toList.map (fun c => J.str (String.singleton c)))
  | .obj fs => .ok (fs.map (fun p => J.str p.1))
  | _ => .error ()

mutual

/-- `extract_files_from_layout(layout_data, current_path)`. -/
def extractFilesFromLayout (layout : J) (currentPath : String) : List String :=
  match layout with
  | .obj fields => extractLayoutFields fields currentPath
  | _ => []

def extractLayoutFields : List (String × J) → String → List String
  | [], _ => []
  | (k, v) :: rest, cp =>
    let np := if cp = "" then k else cp ++ "/" ++ k
    (match v with
     | .obj fs => extractLayoutFields fs np
     | .null => [np]
     | _ => []) ++ extractLayoutFields rest cp

end

/-- Source 1: the active editor file (`currentFileLocationData`). -/
def activeFiles (b : J) : Except Unit (List Attachment) :=
  let cfd := b.getD "currentFileLocationData" .null
  if cfd.truthy then
    match cfd with
    | .obj _ =>
      let fp := pyOr (cfd.getD "uri" .null) (pyOr (cfd.getD "path" .null)
        (pyOr (cfd.getD "filePath" .null) (cfd.getD "file" .null)))
      if fp.truthy then
        .ok [{ atype := "active", path := fp, line := cfd.getD "line" .null,
               preview := cfd.getD "preview" .null }]
      else .ok []
    | _ => .error ()
  else .ok []

/-- Processing of one entry of `projectLayouts`. -/
def layoutFiles (layout : J) : List Attachment :=
  match layout with
  | .str s =>
    match parseJson s with
    | some ld =>
      if ld.isObj then
        (extractFilesFromLayout ld "").map
          (fun f => { atype := "project", path := .str f })
      else []
    | none => []
  | .obj _ =>
    (extractFilesFromLayout layout "").map
      (fun f => { atype := "project", path := .str f })
  | _ => []

/-- Source 2: project layouts. -/
def projectFiles (b : J) : Except Unit (List Attachment) := do
  let items ← pyIter (b.getD "projectLayouts" (.arr []))
  .ok (items.map layoutFiles).flatten

/-- Source 3: codebase context chunks. -/
def contextChunkFiles (b : J) : Except Unit (List Attachment) := do
  let items ← pyIter (b.getD "codebaseContextChunks" (.arr []))
  .ok ((items.map (fun chunk =>
    match chunk with
    | .obj _ =>
      let fp := chunk.getD "relativeWorkspacePath" .null
      if fp.truthy then
        [{ atype := "context", path := fp,
           content := chunk.getD "contents" (.str ""),
           lineRange := chunk.getD "lineRange" .null }]
      else []
    | _ => [])).flatten)

/-- Source 4: relevant files. -/
def relevantFilesA (b : J) : Except Unit (List Attachment) := do
  let items ← pyIter (b.getD "relevantFiles" (.arr []))
  .ok ((items.map (fun fi =>
    match fi with
    | .obj _ =>
      let fp := pyOr (fi.getD "path" .null) (fi.getD "uri" .null)
      if fp.truthy then [{ atype := "relevant", path := fp }] else []
    | .str _ => [{ atype := "relevant", path := fi }]
    | _ => [])).flatten)

/-- Source 5: attached code chunks. -/
def attachedChunkFiles (b : J) : Except Unit (List Attachment) := do
  let items ← pyIter (b.getD "attachedCodeChunks" (.arr []))
  .ok ((items.map (fun chunk =>
    match chunk with
    | .obj _ =>
      let fp := pyOr (chunk.getD "path" .null) (chunk.getD "uri" .null)
      if fp.truthy then
        [{ atype := "selected", path := fp,
           content := chunk.getD "content" (.str ""),
           selection := chunk.getD "selection" .null }]
      else []
    | _ => [])).flatten)

/-- Source 6: file selections under the `context` object. -/
def contextSelectionFiles (b : J) : Except Unit (List Attachment) := do
  let ctx := b.getD "context" (.obj [])
  match ctx with
  | .obj _ => do
    let items ← pyIter (ctx.getD "fileSelections" (.arr []))
    .ok ((items.map (fun sel =>
      match sel with
      | .obj _ =>
        let fp := pyOr (sel.getD "path" .null) (sel.getD "uri" .null)
        if fp.truthy then
          [{ atype := "selected_context", path := fp,
             selection := sel.getD "selection" .null }]
        else []
      | _ => [])).flatten)
  | _ => .ok []

/-- `extract_attached_files(bubble_data)`: the six independent sources, in
source order. -/
def extractAttachedFiles (b : J) : Except Unit (List Attachment) := do
  let a1 ← activeFiles b
  let a2 ← projectFiles b
  let a3 ← contextChunkFiles b
  let a4 ← relevantFilesA b
  let a5 ← attachedChunkFiles b
  let a6 ← contextSelectionFiles b
  .ok (a1 ++ a2 ++ a3 ++ a4 ++ a5 ++ a6)

/-! ## Thinking-content resolution (`_extract_thinking_content`) -/

/-- The `AVSoXO` branch of `_extract_thinking_content`: attempt a base64 +
UTF-8 decode on an `AVSoXO`-prefixed value, falling back to the undecoded
value when the try-block raises. -/
def avsoxoProcess (s : String) : String :=
  if strStartsWith s "AVSoXO" then
    match pyB64DecodeUtf8 s with
    | some dec => dec
    | none => s
  else s

/-- `_extract_thinking_content(thinking_data)`.  A truthy non-string winning
the `or`-chain raises `AttributeError` at `.startswith`, which the caller does
not catch. -/
def extractThinkingContent (td : J) : Except Unit String :=
  if !td.truthy then .ok ""
  else
    match td with
    | .obj _ =>
      let tc := pyOr (td.getD "content" .null) (pyOr (td.getD "text" .null)
        (pyOr (td.getD "thinking" .null) (pyOr (td.getD "signature" .null)
          (.str ""))))
      (match tc with
       | .str s => .ok (avsoxoProcess s)
       | other => if other.truthy then .error () else .ok "")
    | .str s => .ok s
    | _ => .ok ""

/-! ## Message decoding (the per-record body of `get_dialog_messages`) -/

/-- One decoded message, as built by `get_dialog_messages`. -/
structure Message where
  text : String
  btype : J
  bubbleId : J
  key : String
  rowid : Nat
  toolData : J
  attachedFiles : List Attachment
  isThought : Bool
  thinkingDuration : J
  thinkingContent : String
  tokenCount : J
  usageUuid : J
  serverBubbleId : J
  isAgentic : J
  capabilitiesRan : J
  unifiedMode : J
  useWeb : J
  isRefunded : J

/-- Python `x == 2` for a JSON-shaped value (no floats in the modelled
domain; `True == 2` is false). -/
def eqNum2 : J → Bool
  | .num n => n == 2
  | _ => false

/-- The body of the per-record loop of `get_dialog_messages`, applied to an
already-JSON-decoded record.  `.error ()` models an uncaught exception (only
`json.JSONDecodeError` is caught by the source). -/
def decodeBubble (rowid : Nat) (key : String) (b : J) : Except Unit Message := do
  match b with
  | .obj _ => pure ()
  | _ => .error ()
  let text ← match b.getD "text" (.str "") with
    | .str s => .ok (pyStrip s)
    | _ => .error ()
  let btype := b.getD "type" .null
  let toolData := b.getD "toolFormerData" .null
  let thinkingData := b.getD "thinking" .null
  let attached ← extractAttachedFiles b
  let base : Message :=
    { text := text, btype := btype, bubbleId := b.getD "bubbleId" (.str ""),
      key := key, rowid := rowid, toolData := toolData,
      attachedFiles := attached, isThought := false,
      thinkingDuration := .num 0, thinkingContent := "",
      tokenCount := b.getD "tokenCount" (.obj []),
      usageUuid := b.getD "usageUuid" .null,
      serverBubbleId := b.getD "serverBubbleId" .null,
      isAgentic := b.getD "isAgentic" (.bool false),
      capabilitiesRan := b.getD "capabilitiesRan" (.obj []),
      unifiedMode := b.getD "unifiedMode" .null,
      useWeb := b.getD "useWeb" (.bool false),
      isRefunded := b.getD "isRefunded" (.bool false) }
  if eqNum2 btype && text == "" then
    let isThoughtBubble :=
      (b.getD "isThought" .null).truthy || (b.getD "thinking" .null).truthy ||
      (b.getD "thinkingDurationMs" .null).truthy || thinkingData.truthy
    if isThoughtBubble then do
      let content ← extractThinkingContent thinkingData
      .ok { base with
            isThought := true,
            thinkingDuration := b.getD "thinkingDurationMs" (.num 0),
            thinkingContent := content }
    else .ok base
  else .ok base

/-! ## Conversation assembly (`get_dialog_messages`) -/

def composerKey (cid : String) : String := "composerData:" ++ cid
def bubbleKeyBase (cid : String) : String := "bubbleId:" ++ cid ++ ":"

/-- `f"bubbleId:{composer_id}:{bubble_id}"` (the id is `str()`-formatted). -/
def bubbleKey (cid : String) (bid : J) : String :=
  bubbleKeyBase cid ++ pyToStr bid

/-- The declared-order extraction shared by `get_dialog_messages`,
`get_full_dialog` and `get_dialog_context`: parse the `composerData:` record
(a `json.JSONDecodeError` is caught and yields no order) and read
`fullConversationHeadersOnly` as a list of `bubbleId` values.  Uncaught
`TypeError` / `KeyError` on ill-shaped metadata is `.error ()`. -/
def extractOrderedIds (composerResult : Option String) : Except Unit (List J) :=
  match composerResult with
  | none => .ok []
  | some v =>
    match parseJson v with
    | none => .ok []
    | some cd =>
      match cd with
      | .obj fs =>
        if fs.any (fun p => p.1 == "fullConversationHeadersOnly") then do
          let items ← pyIter (cd.getD "fullConversationHeadersOnly" .null)
          items.mapM (fun bubble =>
            match bubble with
            | .obj _ =>
              match bubble.get? "bubbleId" with
              | some bid => .ok bid
              | none => .error ()
            | _ => .error ())
        else .ok []
      | .str s =>
        if strContains s "fullConversationHeadersOnly" then .error ()
        else .ok []
      | .arr xs =>
        if xs.any (fun x => match x with
          | .str s => s == "fullConversationHeadersOnly"
          | _ => false) then .error ()
        else .ok []
      | _ => .error ()

/-- The per-row body of `get_dialog_messages`'s decode loop. -/
def decodeRowStep (acc : List Message) (r : Row) : Except Unit (List Message) :=
  match parseJson r.value with
  | none => pure acc
  | some b => do
    let m ← decodeBubble r.rowid r.key b
    pure (acc ++ [m])

/-- `get_dialog_messages(composer_id)` over a given store. -/
def getDialogMessages (s : Store) (cid : String) : Except Unit (List Message) := do
  let ids ← extractOrderedIds (qValueByKey s (composerKey cid))
  let results : List Row :=
    if ids.isEmpty then qByLike s (bubbleKeyBase cid)
    else ids.filterMap (fun bid => qRowByKey s (bubbleKey cid bid))
  results.foldlM decodeRowStep []

/-- Fetch-and-decode of a single key: `ok none` when the record is absent,
short, or fails JSON decoding (silently skipped by the source); `error` when
decoding raises an uncaught exception. -/
def recDecode (s : Store) (k : String) : Except Unit (Option Message) :=
  match qRowByKey s k with
  | none => .ok none
  | some r =>
    match parseJson r.value with
    | none => .ok none
    | some b => (decodeBubble r.rowid r.key b).map some

/-! ## Transcript retention (`format_dialog` in `cursor_chronicle/formatters.py`
and `get_full_dialog` in `search_history/searcher.py`) -/

/-- The retention guard of `format_dialog` (its loop `continue`s on a message
with empty stripped text, falsy tool data, no attachments and no thinking
flag). -/
def formatDialogKeeps (m : Message) : Bool :=
  !(pyStrip m.text == "" && !m.toolData.truthy && m.attachedFiles.isEmpty &&
    !m.isThought)

/-- The messages `format_dialog` surfaces, in order. -/
def formatDialogSurfaced (msgs : List Message) : List Message :=
  msgs.filter formatDialogKeeps

/-- One entry of `get_full_dialog`'s result. -/
structure FDMessage where
  bubbleId : J
  btype : J
  text : String
  toolData : J

/-- The per-row body of `get_full_dialog`'s decode loop (only records with
non-empty stripped text or truthy tool data are appended). -/
def fullDialogStep (acc : List FDMessage) (r : Row) :
    Except Unit (List FDMessage) :=
  match parseJson r.value with
  | none => pure acc
  | some b => do
    match b with
    | .obj _ => pure ()
    | _ => .error ()
    let text ← match b.getD "text" (.str "") with
      | .str s => .ok (pyStrip s)
      | _ => .error ()
    let toolData := b.getD "toolFormerData" .null
    if text == "" && !toolData.truthy then
      pure acc
    else
      pure (acc ++ [{ bubbleId := b.getD "bubbleId" (.str ""),
                      btype := b.getD "type" .null,
                      text := text,
                      toolData := toolData : FDMessage }])

/-- `get_full_dialog(composer_id)` over a given store. -/
def getFullDialog (s : Store) (cid : String) : Except Unit (List FDMessage) := do
  let ids ← extractOrderedIds (qValueByKey s (composerKey cid))
  let results : List Row :=
    if ids.isEmpty then qByLike s (bubbleKeyBase cid)
    else ids.filterMap (fun bid => qRowByKey s (bubbleKey cid bid))
  results.foldlM fullDialogStep []

/-! ## Search engine (`search_history/searcher.py`) -/

/-- A per-bubble match produced by `search_in_bubble` (before enrichment).
`mtype` / `toolName` model the `"type"` / `"tool_name"` keys that only some
match kinds carry. -/
structure BMatch where
  mfield : String
  content : String
  mtype : Option J := none
  toolName : Option J := none

/-- `search_in_bubble(bubble_data, query, case_sensitive)`. -/
def searchInBubble (b : J) (query : String) (caseSensitive : Bool) :
    Except Unit (List BMatch) := do
  match b with
  | .obj _ => pure ()
  | _ => .error ()
  let text := b.getD "text" (.str "")
  let textMatches ←
    if text.truthy then
      match text with
      | .str s =>
        if patSearch caseSensitive query s then
          .ok [{ mfield := "text", content := s,
                 mtype := some (b.getD "type" .null) : BMatch }]
        else .ok []
      | _ => .error ()
    else .ok ([] : List BMatch)
  let toolData := b.getD "toolFormerData" (.obj [])
  let toolMatches ←
    if toolData.truthy then
      match toolData with
      | .obj _ => do
        let rawArgs := toolData.getD "rawArgs" (.str "")
        let result := toolData.getD "result" (.str "")
        let argM ←
          if rawArgs.truthy then
            match rawArgs with
            | .str s =>
              if patSearch caseSensitive query s then
                .ok [{ mfield := "tool_args", content := s,
                       toolName := some (toolData.getD "name" (.str "unknown")) :
                       BMatch }]
              else .ok []
            | _ => .error ()
          else .ok ([] : List BMatch)
        let resM ←
          if result.truthy then
            match result with
            | .str s =>
              if patSearch caseSensitive query s then
                .ok [{ mfield := "tool_result", content := s,
                       toolName := some (toolData.getD "name" (.str "unknown")) :
                       BMatch }]
              else .ok []
            | _ => .error ()
          else .ok ([] : List BMatch)
        .ok (argM ++ resM)
      | _ => .error ()
    else .ok ([] : List BMatch)
  let thinking := b.getD "thinking" (.obj [])
  let thinkMatches ←
    if thinking.truthy then do
      let thinkingText : J ←
        match thinking with
        | .obj _ =>
          .ok (pyOr (thinking.getD "content" (.str ""))
            (thinking.getD "text" (.str "")))
        | _ => .ok (.str (pyToStr thinking))
      if thinkingText.truthy then
        match thinkingText with
        | .str s =>
          if patSearch caseSensitive query s then
            .ok [{ mfield := "thinking", content := s : BMatch }]
          else .ok []
        | _ => .error ()
      else .ok ([] : List BMatch)
    else .ok ([] : List BMatch)
  .ok (textMatches ++ toolMatches ++ thinkMatches)

/-- One composer summary as assembled by `get_all_composers`: the host
workspace dict fields (arbitrary JSON, absent keys modelled by `none`) plus
the `_project_name` / `_folder_path` strings that `get_all_composers` itself
computes (always strings by construction). -/
structure Composer where
  composerId : Option J := none
  cname : Option J := none
  createdAt : Option J := none
  lastUpdatedAt : Option J := none
  projectName : String
  folderPath : String

/-- One enriched match of `search_all`. -/
structure SMatch where
  mfield : String
  content : String
  mtype : Option J := none
  toolName : Option J := none
  bubbleId : J
  composerId : String
  projectName : String
  folderPath : String
  dialogName : J
  lastUpdated : J
  createdAt : J

/-- Python truthiness of the optional `project_filter` argument. -/
def pfTruthy : Option String → Bool
  | none => false
  | some f => f != ""

/-- The `composer_lookup` dict of `search_all`: later insertions shadow
earlier ones, so entries are consed in front and lookup takes the first hit. -/
def buildLookup (composers : List Composer) (projectFilter : Option String) :
    List (J × Composer) :=
  composers.foldl (fun acc c =>
    let cid := c.composerId.getD .null
    if cid.truthy then
      if pfTruthy projectFilter &&
         !strContains (toLowerStr c.projectName)
           (toLowerStr (projectFilter.getD "")) then acc
      else (cid, c) :: acc
    else acc) []

/-- Python `composer_id in composer_lookup` / `composer_lookup[cid]` for a
string query: a dict key equals the string exactly when it is that string. -/
def lookupFind (lk : List (J × Composer)) (cid : String) : Option Composer :=
  (lk.find? (fun p => match p.1 with
    | .str s => s == cid
    | _ => false)).map Prod.snd

/-- Enrichment of a bubble match with dialog metadata (the `for match in
bubble_matches:` block of `search_all`). -/
def enrich (m : BMatch) (b : J) (cid : String) (c : Composer) : SMatch :=
  { mfield := m.mfield, content := m.content, mtype := m.mtype,
    toolName := m.toolName, bubbleId := b.getD "bubbleId" (.str ""),
    composerId := cid, projectName := c.projectName,
    folderPath := c.folderPath,
    dialogName := c.cname.getD (.str "Untitled"),
    lastUpdated := c.lastUpdatedAt.getD (.num 0),
    createdAt := c.createdAt.getD (.num 0) }

/-- The scan loop of `search_all` (with the raw-value substring pre-check of
the source).  Returns the accumulated matches and the trace of keys passed to
`json.loads`. -/
def searchScan (lk : List (J × Composer)) (q : String) (cs : Bool)
    (limit : Nat) :
    List Row → List SMatch → List String →
    Except Unit (List SMatch × List String)
  | [], acc, tr => .ok (acc, tr)
  | r :: rest, acc, tr =>
    match pySplit r.key ':' with
    | _ :: cid :: _ =>
      (match lookupFind lk cid with
       | none => searchScan lk q cs limit rest acc tr
       | some comp =>
         if !patSearch cs q r.value then searchScan lk q cs limit rest acc tr
         else
           match parseJson r.value with
           | none => searchScan lk q cs limit rest acc (tr ++ [r.key])
           | some b =>
             match searchInBubble b q cs with
             | .error e => .error e
             | .ok bms =>
               if bms.isEmpty then
                 searchScan lk q cs limit rest acc (tr ++ [r.key])
               else
                 let acc' := acc ++ bms.map (fun m => enrich m b cid comp)
                 if limit ≤ acc'.length then .ok (acc', tr ++ [r.key])
                 else searchScan lk q cs limit rest acc' (tr ++ [r.key]))
    | _ => searchScan lk q cs limit rest acc tr

/-- The same scan with the pre-check line removed: the specification's
reference variant ("the per-sub-field match on every decodable message record
without the pre-check"). -/
def searchScanNoPre (lk : List (J × Composer)) (q : String) (cs : Bool)
    (limit : Nat) :
    List Row → List SMatch → List String →
    Except Unit (List SMatch × List String)
  | [], acc, tr => .ok (acc, tr)
  | r :: rest, acc, tr =>
    match pySplit r.key ':' with
    | _ :: cid :: _ =>
      (match lookupFind lk cid with
       | none => searchScanNoPre lk q cs limit rest acc tr
       | some comp =>
         match parseJson r.value with
         | none => searchScanNoPre lk q cs limit rest acc (tr ++ [r.key])
         | some b =>
           match searchInBubble b q cs with
           | .error e => .error e
           | .ok bms =>
             if bms.isEmpty then
               searchScanNoPre lk q cs limit rest acc (tr ++ [r.key])
             else
               let acc' := acc ++ bms.map (fun m => enrich m b cid comp)
               if limit ≤ acc'.length then .ok (acc', tr ++ [r.key])
               else searchScanNoPre lk q cs limit rest acc' (tr ++ [r.key]))
    | _ => searchScanNoPre lk q cs limit rest acc tr

/-- The numeric value of a dialog's `lastUpdatedAt` sort key (Python bools are
integers; non-numeric keys would raise `TypeError` inside Python's sort and
are outside the modelled domain). -/
def jKeyNum : J → Int
  | .num n => n
  | .bool true => 1
  | _ => 0

/-- Descending order on the `last_updated` key.  `sort(key=…, reverse=True)`
is a stable descending sort; it is modelled by the (stable) insertion sort
under this relation. -/
abbrev smatchDescRel (a b : SMatch) : Prop :=
  jKeyNum b.lastUpdated ≤ jKeyNum a.lastUpdated

/-- `search_all(query, case_sensitive, project_filter, limit)` over a given
store and composer list, also returning the trace of keys passed to
`json.loads`. -/
def searchAllTraced (s : Store) (composers : List Composer) (q : String)
    (cs : Bool) (pf : Option String) (limit : Nat) :
    Except Unit (List SMatch × List String) := do
  let lk := buildLookup composers pf
  let (res, tr) ← searchScan lk q cs limit (qByLike s "bubbleId:") [] []
  .ok ((List.insertionSort smatchDescRel res).take limit, tr)

/-- `search_all`'s result list. -/
def searchAll (s : Store) (composers : List Composer) (q : String) (cs : Bool)
    (pf : Option String) (limit : Nat) : Except Unit (List SMatch) :=
  (searchAllTraced s composers q cs pf limit).map Prod.fst

/-- The specification's pre-check-free variant of `search_all`. -/
def searchAllNoPre (s : Store) (composers : List Composer) (q : String)
    (cs : Bool) (pf : Option String) (limit : Nat) :
    Except Unit (List SMatch) := do
  let lk := buildLookup composers pf
  let (res, _) ← searchScanNoPre lk q cs limit (qByLike s "bubbleId:") [] []
  .ok ((List.insertionSort smatchDescRel res).take limit)

/-! ## Context window (`get_dialog_context`) -/

/-- Python `x == target` between a JSON-shaped id and a string. -/
def jEqStr (j : J) (t : String) : Bool :=
  match j with
  | .str s => s == t
  | _ => false

/-- One entry of `get_dialog_context`'s result. -/
structure CtxMessage where
  bubbleId : J
  btype : J
  text : J
  isTarget : Bool

/-- The per-id body of `get_dialog_context`'s fetch loop. -/
def ctxStep (s : Store) (cid : String) (bid : String) (acc : List CtxMessage)
    (bId : J) : Except Unit (List CtxMessage) :=
  match qValueByKey s (bubbleKey cid bId) with
  | none => pure acc
  | some v =>
    match parseJson v with
    | none => pure acc
    | some bd => do
      match bd with
      | .obj _ => pure ()
      | _ => .error ()
      pure (acc ++ [{ bubbleId := bId, btype := bd.getD "type" .null,
                      text := bd.getD "text" (.str ""),
                      isTarget := jEqStr bId bid : CtxMessage }])

/-- `get_dialog_context(composer_id, bubble_id, context_size)` over a given
store. -/
def getDialogContext (s : Store) (cid : String) (bid : String)
    (contextSize : Nat) : Except Unit (List CtxMessage) := do
  let ids ← extractOrderedIds (qValueByKey s (composerKey cid))
  match ids.findIdx? (fun j => jEqStr j bid) with
  | none => .ok []
  | some i =>
    let start := i - contextSize
    let stop := min ids.length (i + contextSize + 1)
    let ctxIds := (ids.drop start).take (stop - start)
    ctxIds.foldlM (ctxStep s cid bid) []

/-! ## Derived helpers used in the claim statements -/

/-- The result of decoding a single row, as an option: `none` when the JSON
decode fails (silently skipped) or when decoding would raise. -/
def rowDecodeOpt (r : Row) : Option Message :=
  match parseJson r.value with
  | none => none
  | some b =>
    match decodeBubble r.rowid r.key b with
    | .ok m => some m
    | .error _ => none

/-- Fetch-and-decode of one declared id: `none` when the record is absent,
short, undecodable, or its decode would raise. -/
def recDecodeOpt (s : Store) (k : String) : Option Message :=
  (qRowByKey s k).bind rowDecodeOpt

/-- The store with every short record (`LENGTH(value) ≤ 100`) removed. -/
def longOnly (s : Store) : Store := s.filter rowLong

/-- The result of fetching and decoding one context-window id. -/
def ctxDecodeOpt (s : Store) (cid bid : String) (bId : J) : Option CtxMessage :=
  match qValueByKey s (bubbleKey cid bId) with
  | none => none
  | some v =>
    match parseJson v with
    | none => none
    | some bd =>
      match bd with
      | .obj _ => some { bubbleId := bId, btype := bd.getD "type" .null,
                         text := bd.getD "text" (.str ""),
                         isTarget := jEqStr bId bid }
      | _ => none

/-- The result of decoding a single row in `get_full_dialog`, as an option. -/
def fdRowOpt (r : Row) : Option FDMessage :=
  match parseJson r.value with
  | none => none
  | some b =>
    match b with
    | .obj _ =>
      (match b.getD "text" (.str "") with
       | .str s0 =>
         let text := pyStrip s0
         let toolData := b.getD "toolFormerData" .null
         if text == "" && !toolData.truthy then none
         else some { bubbleId := b.getD "bubbleId" (.str ""),
                     btype := b.getD "type" .null,
                     text := text, toolData := toolData }
       | _ => none)
    | _ => none

/-- The matches one scanned row contributes in `search_all` (same filters as
the scan loop, pre-check included), ignoring the early-termination cap. -/
def rowMatches (lk : List (J × Composer)) (q : String) (cs : Bool) (r : Row) :
    Except Unit (List SMatch) :=
  match pySplit r.key ':' with
  | _ :: cid :: _ =>
    (match lookupFind lk cid with
     | none => .ok []
     | some comp =>
       if !patSearch cs q r.value then .ok []
       else
         match parseJson r.value with
         | none => .ok []
         | some b =>
           (searchInBubble b q cs).map
             (fun bms => bms.map (fun m => enrich m b cid comp)))
  | _ => .ok []

/-- A row whose decoded sub-fields yield no match at all (and whose match
test does not raise): on such rows the pre-check cannot change the result. -/
def rowFieldMatchFree (q : String) (cs : Bool) (r : Row) : Bool :=
  match parseJson r.value with
  | none => true
  | some b =>
    match searchInBubble b q cs with
    | .ok [] => true
    | _ => false

/-- The string value of a thinking-payload field (empty when absent; the
claims about resolution order restrict payloads to string-or-absent fields). -/
def strField (td : J) (k : String) : String :=
  match td.get? k with
  | some (.str s) => s
  | _ => ""

/-- A payload field that is absent or a string. -/
def fieldStrOk (td : J) (k : String) : Bool :=
  match td.get? k with
  | none => true
  | some (.str _) => true
  | some _ => false

/-- The four thinking-content fields are each absent or strings. -/
def thinkFieldsOk (td : J) : Bool :=
  fieldStrOk td "content" && fieldStrOk td "text" &&
    fieldStrOk td "thinking" && fieldStrOk td "signature"

/-- The claim's resolution rule: the first non-empty value among the
payload's `content`, `text`, `thinking` and `signature` fields. -/
def specResolve (td : J) : String :=
  if strField td "content" = "" then
    (if strField td "text" = "" then
      (if strField td "thinking" = "" then strField td "signature"
       else strField td "thinking")
     else strField td "text")
  else strField td "content"

/-- The claim's four-way retention rule for transcript surfacing. -/
def keepRule (m : Message) : Bool :=
  pyStrip m.text != "" || m.toolData.truthy || !m.attachedFiles.isEmpty ||
    m.isThought

/-- Strict `'/'.join`. -/
def joinSlash : List String → String
  | [] => ""
  | [k] => k
  | k :: ks => k ++ "/" ++ joinSlash ks

/-- The path accumulator of `extract_files_from_layout`: an empty accumulated
path contributes no separator (`new_path = key if not current_path`). -/
def pyJoinAux (cp : String) : List String → String
  | [] => cp
  | k :: ks => pyJoinAux (if cp = "" then k else cp ++ "/" ++ k) ks

/-- The path the source builds from a chain of ancestor keys. -/
def pyJoin (ks : List String) : String := pyJoinAux "" ks

/-- A chain of keys leading from a layout tree to a `null` leaf. -/
inductive IsLeafChain : J → List String → Prop where
  | last {fs : List (String × J)} {k : String} :
      (k, J.null) ∈ fs → IsLeafChain (J.obj fs) [k]
  | step {fs : List (String × J)} {k : String} {v : J} {ks : List String} :
      (k, v) ∈ fs → IsLeafChain v ks → IsLeafChain (J.obj fs) (k :: ks)

/-! ## Concrete stores and records used by the witnesses and counterexamples -/

def pad80 : String := String.mk (List.replicate 80 'x')

/-- A simple long message record with the given text. -/
def bubV (t : String) : String :=
  "\x7b\"text\":\"" ++ t ++ "\",\"type\":1,\"pad\":\"" ++ pad80 ++ "\"\x7d"

/-- Dialog metadata declaring the order `[b2, b1, bZ]`. -/
def metaV1 : String :=
  "\x7b\"fullConversationHeadersOnly\":[\x7b\"bubbleId\":\"b2\"\x7d,\x7b\"bubbleId\":\"b1\"\x7d,\x7b\"bubbleId\":\"bZ\"\x7d],\"pad\":\"" ++ pad80 ++ "\"\x7d"

/-- Store for the declared-order witness: `bZ`'s record exists but is short,
so the length filter excludes it. -/
def store1 : Store :=
  [⟨1, "composerData:c1", metaV1⟩,
   ⟨2, "bubbleId:c1:b1", bubV "hello"⟩,
   ⟨3, "bubbleId:c1:b2", bubV "world"⟩,
   ⟨4, "bubbleId:c1:bZ", "\x7b\"text\":\"short\"\x7d"⟩,
   ⟨5, "bubbleId:c1:b3", bubV "extra"⟩]

/-- Metadata that is valid JSON (a number) but not an object: `in` raises
`TypeError` in the source. -/
def metaNum : String := "5" ++ String.mk (List.replicate 100 ' ')

def store6 : Store :=
  [⟨1, "composerData:c6", metaNum⟩, ⟨2, "bubbleId:c6:b1", bubV "hi"⟩]

/-- A record that is a thinking segment only: empty text, no tool data, a
thinking payload. -/
def thinkV : String :=
  "\x7b\"text\":\"\",\"type\":2,\"thinking\":\x7b\"content\":\"pondering\"\x7d,\"pad\":\"" ++ pad80 ++ "\"\x7d"

def store2 : Store := [⟨1, "bubbleId:c2:b1", thinkV⟩]

/-- A record whose decoded text contains a quoted substring; the raw JSON
carries it escaped (`\"hi\"`), so a query containing the quotes fails the raw
pre-check while matching the decoded field. -/
def escV : String :=
  "\x7b\"text\":\"say \\\"hi\\\" now\",\"bubbleId\":\"b1\",\"pad\":\"" ++ pad80 ++ "\"\x7d"

def comp4 : Composer :=
  { composerId := some (J.str "c4"), lastUpdatedAt := some (J.num 7),
    projectName := "proj", folderPath := "/p" }

def store4 : Store := [⟨1, "bubbleId:c4:b1", escV⟩]

/-- Two-dialog store for the search witnesses (both records match "hello"). -/
def comp7a : Composer :=
  { composerId := some (J.str "c7a"), lastUpdatedAt := some (J.num 5),
    projectName := "alpha", folderPath := "/a" }

def comp7b : Composer :=
  { composerId := some (J.str "c7b"), lastUpdatedAt := some (J.num 9),
    projectName := "beta", folderPath := "/b" }

def store7 : Store :=
  [⟨1, "bubbleId:c7a:m1", bubV "hello there"⟩,
   ⟨2, "bubbleId:c7b:m2", bubV "hello again"⟩]

/-- Three-message dialog for the context-window witness. -/
def metaV8 : String :=
  "\x7b\"fullConversationHeadersOnly\":[\x7b\"bubbleId\":\"a1\"\x7d,\x7b\"bubbleId\":\"a2\"\x7d,\x7b\"bubbleId\":\"a3\"\x7d],\"pad\":\"" ++ pad80 ++ "\"\x7d"

def store8 : Store :=
  [⟨1, "composerData:c8", metaV8⟩,
   ⟨2, "bubbleId:c8:a1", bubV "one"⟩,
   ⟨3, "bubbleId:c8:a2", bubV "two"⟩,
   ⟨4, "bubbleId:c8:a3", bubV "three"⟩]

/-- A non-assistant record carrying every thinking marker. -/
def bubC10 : J :=
  .obj [("text", .str "hi"), ("type", .num 1), ("isThought", .bool true),
        ("thinkingDurationMs", .num 500),
        ("thinking", .obj [("content", .str "deep")])]

/-- The message `bubC10` decodes to. -/
def msgC10 : Message :=
  { text := "hi", btype := .num 1, bubbleId := .str "", key := "k", rowid := 0,
    toolData := .null, attachedFiles := [], isThought := false,
    thinkingDuration := .num 0, thinkingContent := "",
    tokenCount := .obj [], usageUuid := .null, serverBubbleId := .null,
    isAgentic := .bool false, capabilitiesRan := .obj [],
    unifiedMode := .null, useWeb := .bool false, isRefunded := .bool false }

/-! ### Concrete fixtures and order instances used by the theorems -/

def store6b : Store := [⟨1, "bubbleId:c6:b1", bubV "first"⟩,
                        ⟨2, "bubbleId:c6:b2", bubV "second"⟩]

def store2w : Store := [⟨1, "bubbleId:cw:b1", bubV "hello"⟩]

def fdC2 : FDMessage :=
  { bubbleId := .str "", btype := .num 1, text := "hello", toolData := .null }

def mC2 : Message :=
  { text := "hi", btype := .num 1, bubbleId := .str "", key := "k", rowid := 0,
    toolData := .null, attachedFiles := [], isThought := false,
    thinkingDuration := .num 0, thinkingContent := "",
    tokenCount := .obj [], usageUuid := .null, serverBubbleId := .null,
    isAgentic := .bool false, capabilitiesRan := .obj [],
    unifiedMode := .null, useWeb := .bool false, isRefunded := .bool false }

instance : IsTotal SMatch smatchDescRel :=
  ⟨fun a b => le_total (jKeyNum b.lastUpdated) (jKeyNum a.lastUpdated)⟩

instance : IsTrans SMatch smatchDescRel :=
  ⟨fun _ _ _ hab hbc => le_trans hbc hab⟩

def comp4w : Composer :=
  { composerId := some (J.str "cw4"), lastUpdatedAt := some (J.num 3),
    projectName := "projw", folderPath := "/w" }

def store4w : Store := [⟨1, "bubbleId:cw4:b1", bubV "hello"⟩]

/-! ## Theorems -/

theorem foldlM_ok_shape {α β : Type} (step : List β → α → Except Unit (List β))
    (f : α → Option β)
    (hstep : ∀ acc a out, step acc a = .ok out → out = acc ++ (f a).toList) :
    ∀ (l : List α) (acc out : List β), l.foldlM step acc = .ok out →
      out = acc ++ l.filterMap f := by
  intro l
  induction l with
  | nil =>
    intro acc out h
    simp only [List.foldlM_nil, pure, Except.pure, Except.ok.injEq] at h
    simp [h.symm]
  | cons a t ih =>
    intro acc out h
    rw [List.foldlM_cons] at h
    cases hs : step acc a with
    | error e =>
      rw [hs] at h
      exact absurd h (by simp [Bind.bind, Except.bind])
    | ok acc' =>
      rw [hs] at h
      simp only [Bind.bind, Except.bind] at h
      have h3 := ih acc' out h
      have h4 := hstep acc a acc' hs
      subst h4
      cases hf : f a <;>
        simp only [hf, Option.toList, List.filterMap_cons] at h3 ⊢ <;>
        simp [h3]

theorem decodeRowStep_shape (acc : List Message) (r : Row) (out : List Message)
    (h : decodeRowStep acc r = .ok out) :
    out = acc ++ (rowDecodeOpt r).toList := by
  unfold decodeRowStep at h
  unfold rowDecodeOpt
  cases hp : parseJson r.value with
  | none =>
    simp only [hp, pure, Except.pure, Except.ok.injEq] at h
    simp [h.symm]
  | some b =>
    simp only [hp] at h ⊢
    cases hd : decodeBubble r.rowid r.key b with
    | error e =>
      simp only [hd, Bind.bind, Except.bind] at h
      exact absurd h (by simp)
    | ok m =>
      simp only [hd, Bind.bind, Except.bind, pure, Except.pure,
        Except.ok.injEq] at h
      simp [h.symm]

theorem fullDialogStep_shape (acc : List FDMessage) (r : Row)
    (out : List FDMessage) (h : fullDialogStep acc r = .ok out) :
    out = acc ++ (fdRowOpt r).toList := by
  unfold fullDialogStep at h
  unfold fdRowOpt
  cases hp : parseJson r.value with
  | none =>
    simp only [hp, pure, Except.pure, Except.ok.injEq] at h
    simp [h.symm]
  | some b =>
    simp only [hp] at h ⊢
    cases b with
    | obj fs =>
      simp only [Bind.bind, Except.bind, pure, Except.pure] at h ⊢
      cases ht : (J.obj fs).getD "text" (.str "") with
      | str s0 =>
        simp only [ht] at h ⊢
        by_cases hg : pyStrip s0 = "" ∧
            ((J.obj fs).getD "toolFormerData" J.null).truthy = false
        · simp only [Bool.and_eq_true, beq_iff_eq, Bool.not_eq_true'] at h ⊢
          rw [if_pos hg] at h
          rw [if_pos hg]
          simp only [Except.ok.injEq] at h
          simp [h.symm]
        · simp only [Bool.and_eq_true, beq_iff_eq, Bool.not_eq_true'] at h ⊢
          rw [if_neg hg] at h
          rw [if_neg hg]
          simp only [Except.ok.injEq] at h
          simp [h.symm]
      | null => simp only [ht] at h; exact absurd h (by simp)
      | bool b2 => simp only [ht] at h; exact absurd h (by simp)
      | num n => simp only [ht] at h; exact absurd h (by simp)
      | arr xs => simp only [ht] at h; exact absurd h (by simp)
      | obj fs2 => simp only [ht] at h; exact absurd h (by simp)
    | null => simp only [Bind.bind, Except.bind] at h; exact absurd h (by simp)
    | bool b2 => simp only [Bind.bind, Except.bind] at h; exact absurd h (by simp)
    | num n => simp only [Bind.bind, Except.bind] at h; exact absurd h (by simp)
    | str s2 => simp only [Bind.bind, Except.bind] at h; exact absurd h (by simp)
    | arr xs => simp only [Bind.bind, Except.bind] at h; exact absurd h (by simp)

theorem ctxStep_shape (s : Store) (cid bid : String) (acc : List CtxMessage)
    (bId : J) (out : List CtxMessage)
    (h : ctxStep s cid bid acc bId = .ok out) :
    out = acc ++ (ctxDecodeOpt s cid bid bId).toList := by
  unfold ctxStep at h
  unfold ctxDecodeOpt
  cases hq : qValueByKey s (bubbleKey cid bId) with
  | none =>
    simp only [hq, pure, Except.pure, Except.ok.injEq] at h
    simp [h.symm]
  | some v =>
    simp only [hq] at h ⊢
    cases hp : parseJson v with
    | none =>
      simp only [hp, pure, Except.pure, Except.ok.injEq] at h
      simp [h.symm]
    | some bd =>
      simp only [hp] at h ⊢
      cases bd with
      | obj fs =>
        simp only [Bind.bind, Except.bind, pure, Except.pure,
          Except.ok.injEq] at h
        simp [h.symm]
      | null => simp only [Bind.bind, Except.bind] at h; exact absurd h (by simp)
      | bool b2 => simp only [Bind.bind, Except.bind] at h; exact absurd h (by simp)
      | num n => simp only [Bind.bind, Except.bind] at h; exact absurd h (by simp)
      | str s2 => simp only [Bind.bind, Except.bind] at h; exact absurd h (by simp)
      | arr xs => simp only [Bind.bind, Except.bind] at h; exact absurd h (by simp)

/-- Claim C1: for a dialog whose metadata record declares a valid ordered list of
message ids, getDialogMessages returns exactly the decodable stored messages in that
declared order, silently skipping every id whose record is absent from the store or
excluded by the length filter, and never reordering the remaining messages. -/
theorem claim_C1 (s : Store) (cid : String) (ids : List J)
    (msgs : List Message)
    (hmeta : extractOrderedIds (qValueByKey s (composerKey cid)) = .ok ids)
    (hne : ids.isEmpty = false)
    (hok : getDialogMessages s cid = .ok msgs) :
    msgs = ids.filterMap (fun bid => recDecodeOpt s (bubbleKey cid bid)) := by
  unfold getDialogMessages at hok
  rw [hmeta] at hok
  simp only [Bind.bind, Except.bind, hne, Bool.false_eq_true, if_false] at hok
  have h := foldlM_ok_shape decodeRowStep rowDecodeOpt decodeRowStep_shape
    (ids.filterMap (fun bid => qRowByKey s (bubbleKey cid bid))) [] msgs hok
  rw [h, List.nil_append, List.filterMap_filterMap]
  rfl

set_option maxRecDepth 20000 in
theorem claim_C1_witness :
    ((getDialogMessages store1 "c1").toOption.getD []) =
      [J.str "b2", J.str "b1", J.str "bZ"].filterMap
        (fun bid => recDecodeOpt store1 (bubbleKey "c1" bid)) ∧
    ((getDialogMessages store1 "c1").toOption.getD []).map Message.text =
      ["world", "hello"] :=
  ⟨claim_C1 store1 "c1" [J.str "b2", J.str "b1", J.str "bZ"] _ rfl rfl rfl,
   rfl⟩

/-- Claim C6 (corrected): when the metadata record is absent, fails to parse as JSON,
or parses to a JSON object without a declared order, assembly falls back to returning
all of the dialogs message records in store insertion order without failing; however,
metadata that parses to valid non-object JSON (for example the number 5) makes
get_dialog_messages raise an uncaught TypeError instead of falling back. -/
theorem claim_C6 (s : Store) (cid : String) (out : List Message)
    (hmeta : extractOrderedIds (qValueByKey s (composerKey cid)) = .ok [])
    (hok : getDialogMessages s cid = .ok out) :
    out = (qByLike s (bubbleKeyBase cid)).filterMap rowDecodeOpt := by
  unfold getDialogMessages at hok
  rw [hmeta] at hok
  simp only [Bind.bind, Except.bind, List.isEmpty_nil, if_true] at hok
  have h := foldlM_ok_shape decodeRowStep rowDecodeOpt decodeRowStep_shape
    (qByLike s (bubbleKeyBase cid)) [] out hok
  simpa using h

theorem claim_C6_counterexample :
    parseJson metaNum = some (J.num 5) ∧
    getDialogMessages store6 "c6" = .error () := ⟨rfl, rfl⟩

set_option maxRecDepth 20000 in
theorem claim_C6_witness :
    ((getDialogMessages store6b "c6").toOption.getD []) =
      (qByLike store6b (bubbleKeyBase "c6")).filterMap rowDecodeOpt ∧
    ((getDialogMessages store6b "c6").toOption.getD []).map Message.text =
      ["first", "second"] :=
  ⟨claim_C6 store6b "c6" _ rfl rfl, rfl⟩

/-- Claim C8: getDialogContext returns the messages of the contiguous slice of the
declared order covering positions target minus radius through target plus radius,
clipped at the ends, with the target message flagged; a messageId that does not occur
in the declared order yields the empty sequence, not an error. -/
theorem claim_C8 (s : Store) (cid bid : String) (r : Nat) (ids : List J)
    (hmeta : extractOrderedIds (qValueByKey s (composerKey cid)) = .ok ids) :
    (ids.findIdx? (fun j => jEqStr j bid) = none →
      getDialogContext s cid bid r = .ok []) ∧
    (∀ i out, ids.findIdx? (fun j => jEqStr j bid) = some i →
      getDialogContext s cid bid r = .ok out →
      out = ((ids.drop (i - r)).take
          (min ids.length (i + r + 1) - (i - r))).filterMap
        (ctxDecodeOpt s cid bid)) := by
  constructor
  · intro hfind
    unfold getDialogContext
    rw [hmeta]
    simp only [Bind.bind, Except.bind, hfind]
  · intro i out hfind hok
    unfold getDialogContext at hok
    rw [hmeta] at hok
    simp only [Bind.bind, Except.bind, hfind] at hok
    have h := foldlM_ok_shape (ctxStep s cid bid) (ctxDecodeOpt s cid bid)
      (ctxStep_shape s cid bid)
      ((ids.drop (i - r)).take (min ids.length (i + r + 1) - (i - r))) [] out
      hok
    simpa using h

set_option maxRecDepth 20000 in
theorem claim_C8_witness :
    ((getDialogContext store8 "c8" "a2" 1).toOption.getD []) =
      (([J.str "a1", J.str "a2", J.str "a3"].drop 0).take 3).filterMap
        (ctxDecodeOpt store8 "c8" "a2") ∧
    ((getDialogContext store8 "c8" "a2" 1).toOption.getD []).map
        (fun m => (m.bubbleId, m.isTarget)) =
      [(J.str "a1", false), (J.str "a2", true), (J.str "a3", false)] ∧
    getDialogContext store8 "c8" "zz" 1 = .ok [] :=
  ⟨(claim_C8 store8 "c8" "a2" 1 [J.str "a1", J.str "a2", J.str "a3"]
      rfl).2 1 _ rfl rfl,
   rfl,
   (claim_C8 store8 "c8" "zz" 1 [J.str "a1", J.str "a2", J.str "a3"]
      rfl).1 rfl⟩

/-- Claim C10: is_thought = true implies the records type is 2 and its stripped text
is empty; a record whose type is not 2 or whose stripped text is non-empty is decoded
with is_thought = false, zero thinking duration and empty thinking content, even if it
carries a thought flag, a thinking payload or a non-zero thinking duration. -/
theorem claim_C10 (rowid : Nat) (key : String) (b : J) (m : Message)
    (h : decodeBubble rowid key b = .ok m) :
    (m.isThought = true → b.getD "type" .null = J.num 2 ∧ m.text = "") ∧
    (eqNum2 (b.getD "type" .null) = false →
      m.isThought = false ∧ m.thinkingDuration = J.num 0 ∧
      m.thinkingContent = "") := by
  unfold decodeBubble at h
  cases b with
  | obj fs =>
    simp only [Bind.bind, Except.bind, pure, Except.pure] at h
    cases ht : (J.obj fs).getD "text" (.str "") with
    | str s0 =>
      simp only [ht] at h
      cases ha : extractAttachedFiles (J.obj fs) with
      | error e => simp only [ha] at h; exact absurd h (by simp)
      | ok att =>
        simp only [ha] at h
        by_cases hc : (eqNum2 ((J.obj fs).getD "type" J.null) &&
            pyStrip s0 == "") = true
        · rw [if_pos hc] at h
          simp only [Bool.and_eq_true, beq_iff_eq] at hc
          obtain ⟨hc1, hc2⟩ := hc
          by_cases hb : (((J.obj fs).getD "isThought" J.null).truthy ||
              ((J.obj fs).getD "thinking" J.null).truthy ||
              ((J.obj fs).getD "thinkingDurationMs" J.null).truthy ||
              ((J.obj fs).getD "thinking" J.null).truthy) = true
          · rw [if_pos hb] at h
            cases he : extractThinkingContent ((J.obj fs).getD "thinking" J.null) with
            | error e => simp only [he] at h; exact absurd h (by simp)
            | ok content =>
              simp only [he, Except.ok.injEq] at h
              subst h
              refine ⟨fun _ => ⟨?_, hc2⟩, fun hfalse => ?_⟩
              · cases hty : (J.obj fs).getD "type" J.null <;>
                  rw [hty] at hc1 <;> simp [eqNum2] at hc1
                simp [hc1]
              · rw [hfalse] at hc1; exact absurd hc1 (by simp)
          · rw [if_neg hb] at h
            simp only [Except.ok.injEq] at h
            subst h
            exact ⟨fun hv => absurd hv (by simp), fun _ => ⟨rfl, rfl, rfl⟩⟩
        · rw [if_neg hc] at h
          simp only [Except.ok.injEq] at h
          subst h
          exact ⟨fun hv => absurd hv (by simp), fun _ => ⟨rfl, rfl, rfl⟩⟩
    | null => simp only [ht] at h; exact absurd h (by simp)
    | bool b2 => simp only [ht] at h; exact absurd h (by simp)
    | num n => simp only [ht] at h; exact absurd h (by simp)
    | arr xs => simp only [ht] at h; exact absurd h (by simp)
    | obj fs2 => simp only [ht] at h; exact absurd h (by simp)
  | null => exact absurd h (by simp [Bind.bind, Except.bind])
  | bool b2 => exact absurd h (by simp [Bind.bind, Except.bind])
  | num n => exact absurd h (by simp [Bind.bind, Except.bind])
  | str s2 => exact absurd h (by simp [Bind.bind, Except.bind])
  | arr xs => exact absurd h (by simp [Bind.bind, Except.bind])

theorem claim_C10_witness :
    decodeBubble 0 "k" bubC10 = .ok msgC10 ∧
    msgC10.isThought = false ∧ msgC10.thinkingDuration = J.num 0 ∧
    msgC10.thinkingContent = "" :=
  ⟨rfl, (claim_C10 0 "k" bubC10 msgC10 rfl).2 rfl⟩

theorem fdRowOpt_guard (r : Row) (fm : FDMessage) (h : fdRowOpt r = some fm) :
    fm.text ≠ "" ∨ fm.toolData.truthy = true := by
  unfold fdRowOpt at h
  cases hp : parseJson r.value with
  | none => rw [hp] at h; exact absurd h (by simp)
  | some b =>
    rw [hp] at h
    cases b with
    | obj fs =>
      cases ht : (J.obj fs).getD "text" (.str "") with
      | str s0 =>
        simp only [ht] at h
        by_cases hg : (pyStrip s0 == "" &&
            !((J.obj fs).getD "toolFormerData" J.null).truthy) = true
        · rw [if_pos hg] at h; exact absurd h (by simp)
        · rw [if_neg hg] at h
          simp only [Option.some.injEq] at h
          subst h
          simp only [Bool.and_eq_true, beq_iff_eq, Bool.not_eq_true',
            not_and] at hg
          by_cases hs : pyStrip s0 = ""
          · exact Or.inr (by simpa using hg hs)
          · exact Or.inl hs
      | null => simp [ht] at h
      | bool b2 => simp [ht] at h
      | num n => simp [ht] at h
      | arr xs => simp [ht] at h
      | obj fs2 => simp [ht] at h
    | null => simp at h
    | bool b2 => simp at h
    | num n => simp at h
    | str s2 => simp at h
    | arr xs => simp at h

/-- Claim C2 (corrected): format_dialog keeps a decoded message iff it has non-empty
text, or a tool invocation, or at least one attachment, or is a thinking segment; but
get_full_dialog keeps only records with non-empty text or a truthy tool payload, so a
message carrying only attachments or only a thinking segment is dropped there. -/
theorem claim_C2 :
    (∀ (msgs : List Message) (m : Message),
      m ∈ formatDialogSurfaced msgs ↔ m ∈ msgs ∧ keepRule m = true) ∧
    (∀ (s : Store) (cid : String) (out : List FDMessage),
      getFullDialog s cid = .ok out →
      ∀ fm ∈ out, fm.text ≠ "" ∨ fm.toolData.truthy = true) := by
  constructor
  · intro msgs m
    unfold formatDialogSurfaced
    rw [List.mem_filter]
    unfold formatDialogKeeps keepRule
    simp only [Bool.not_eq_true', Bool.and_eq_false_iff, Bool.or_eq_true,
      bne_iff_ne, ne_eq, Bool.not_eq_false', Bool.not_eq_true,
      List.isEmpty_eq_true, beq_iff_eq, List.isEmpty_eq_false,
      beq_eq_false_iff_ne]
  · intro s cid out h fm hmem
    unfold getFullDialog at h
    cases he : extractOrderedIds (qValueByKey s (composerKey cid)) with
    | error e => rw [he] at h; exact absurd h (by simp [Bind.bind, Except.bind])
    | ok ids =>
      rw [he] at h
      simp only [Bind.bind, Except.bind] at h
      have hout := foldlM_ok_shape fullDialogStep fdRowOpt fullDialogStep_shape
        _ [] out h
      rw [hout] at hmem
      simp only [List.nil_append, List.mem_filterMap] at hmem
      obtain ⟨r, _, hr⟩ := hmem
      exact fdRowOpt_guard r fm hr

set_option maxRecDepth 20000 in
theorem claim_C2_counterexample :
    (getDialogMessages store2 "c2").map
        (List.map (fun m => (keepRule m, m.isThought))) =
      .ok [(true, true)] ∧
    getFullDialog store2 "c2" = .ok [] := ⟨rfl, rfl⟩

set_option maxRecDepth 20000 in
theorem claim_C2_witness :
    (mC2 ∈ formatDialogSurfaced [mC2] ↔ mC2 ∈ [mC2] ∧ keepRule mC2 = true) ∧
    (fdC2.text ≠ "" ∨ fdC2.toolData.truthy = true) :=
  ⟨claim_C2.1 [mC2] mC2,
   claim_C2.2 store2w "cw" [fdC2] rfl fdC2 (List.mem_singleton.mpr rfl)⟩

theorem filter_cons_pos {p : Char → Bool} (a : Char) (l : List Char)
    (h : p a = true) : (a :: l).filter p = a :: l.filter p := by
  simp [List.filter_cons, h]

theorem utf8_byte1 (bs : List Nat) :
    utf8Decode (1 :: bs) = (utf8Decode bs).map (fun cs => Char.ofNat 1 :: cs) := by
  cases bs with
  | nil => rfl
  | cons c bs1 =>
    cases bs1 with
    | nil => rfl
    | cons d bs2 =>
      cases bs2 with
      | nil => rfl
      | cons e bs3 => rfl

theorem utf8_byte84 (bs : List Nat) :
    utf8Decode (84 :: bs) = (utf8Decode bs).map (fun cs => Char.ofNat 84 :: cs) := by
  cases bs with
  | nil => rfl
  | cons c bs1 =>
    cases bs1 with
    | nil => rfl
    | cons d bs2 =>
      cases bs2 with
      | nil => rfl
      | cons e bs3 => rfl

theorem utf8_byte168 (bs : List Nat) : utf8Decode (168 :: bs) = none := by
  cases bs with
  | nil => rfl
  | cons c bs1 =>
    cases bs1 with
    | nil => rfl
    | cons d bs2 =>
      cases bs2 with
      | nil => rfl
      | cons e bs3 => rfl

theorem avsoxo_decode_none (s : String)
    (hstart : strStartsWith s "AVSoXO" = true) : pyB64DecodeUtf8 s = none := by
  have hp : "AVSoXO".toList <+: s.toList := by
    rw [← List.isPrefixOf_iff_prefix]
    exact hstart
  obtain ⟨t, ht⟩ := hp
  have ht2 : s.toList = 'A' :: 'V' :: 'S' :: 'o' :: 'X' :: 'O' :: t := ht.symm
  unfold pyB64DecodeUtf8 b64decodePy
  rw [ht2]
  by_cases hall : (('A' :: 'V' :: 'S' :: 'o' :: 'X' :: 'O' :: t).all
      (fun c => c.toNat < 128)) = true
  · rw [if_pos hall]
    rw [filter_cons_pos _ _ (by decide), filter_cons_pos _ _ (by decide),
      filter_cons_pos _ _ (by decide), filter_cons_pos _ _ (by decide),
      filter_cons_pos _ _ (by decide), filter_cons_pos _ _ (by decide)]
    rw [b64Quads]
    simp only [show b64CharVal 'A' = some 0 from by decide,
      show b64CharVal 'V' = some 21 from by decide]
    rw [if_neg (by decide : ¬('S' = '='))]
    simp only [show b64CharVal 'S' = some 18 from by decide]
    rw [if_neg (by decide : ¬('o' = '='))]
    simp only [show b64CharVal 'o' = some 40 from by decide]
    cases hq : b64Quads ('X' :: 'O' ::
        t.filter (fun c => (b64CharVal c).isSome || c = '=')) with
    | none => rfl
    | some bs =>
      show Option.map String.mk (utf8Decode (1 :: 84 :: 168 :: bs)) = none
      rw [utf8_byte1, utf8_byte84, utf8_byte168]
      rfl
  · rw [if_neg hall]
    rfl

theorem pyOr_field (td : J) (k : String) (rest : J)
    (hk : fieldStrOk td k = true) :
    pyOr (td.getD k .null) rest =
      if strField td k = "" then rest else J.str (strField td k) := by
  unfold fieldStrOk at hk
  unfold strField J.getD
  cases hget : td.get? k with
  | none => simp [pyOr, J.truthy]
  | some v =>
    rw [hget] at hk
    cases v with
    | str s =>
      by_cases hs : s = ""
      · simp [pyOr, J.truthy, hs]
      · simp [pyOr, J.truthy, hs]
    | null => simp at hk
    | bool b2 => simp at hk
    | num n => simp at hk
    | arr xs => simp at hk
    | obj fs2 => simp at hk

theorem avsoxoProcess_id (s : String) : avsoxoProcess s = s := by
  unfold avsoxoProcess
  by_cases hA : strStartsWith s "AVSoXO" = true
  · rw [if_pos hA, avsoxo_decode_none s hA]
  · rw [if_neg hA]

/-- Claim C3: the resolved thinking content is the first truthy value among the
payloads content, text, thinking and signature fields, or the payload itself when it
is a bare string; and every resolved value starting with AVSoXO fails the attempted
base64-then-UTF-8 decode, so the undecoded value is always kept. -/
theorem claim_C3 :
    (∀ td, td.isObj = true → thinkFieldsOk td = true →
      extractThinkingContent td = .ok (specResolve td)) ∧
    (∀ s, extractThinkingContent (J.str s) = .ok s) ∧
    (∀ s, strStartsWith s "AVSoXO" = true → pyB64DecodeUtf8 s = none) := by
  refine ⟨?_, ?_, avsoxo_decode_none⟩
  · intro td hobj hfields
    cases td with
    | obj fs =>
      simp only [thinkFieldsOk, Bool.and_eq_true] at hfields
      obtain ⟨⟨⟨h1, h2⟩, h3⟩, h4⟩ := hfields
      unfold extractThinkingContent
      cases fs with
      | nil => rfl
      | cons hd tl =>
        rw [if_neg (by simp [J.truthy])]
        rw [pyOr_field _ _ _ h1, pyOr_field _ _ _ h2, pyOr_field _ _ _ h3,
          pyOr_field _ _ _ h4]
        unfold specResolve
        by_cases e1 : strField (J.obj (hd :: tl)) "content" = "" <;>
          by_cases e2 : strField (J.obj (hd :: tl)) "text" = "" <;>
          by_cases e3 : strField (J.obj (hd :: tl)) "thinking" = "" <;>
          by_cases e4 : strField (J.obj (hd :: tl)) "signature" = "" <;>
          simp [e1, e2, e3, e4, avsoxoProcess_id]
    | null => simp [J.isObj] at hobj
    | bool b2 => simp [J.isObj] at hobj
    | num n => simp [J.isObj] at hobj
    | str s2 => simp [J.isObj] at hobj
    | arr xs => simp [J.isObj] at hobj
  · intro s
    unfold extractThinkingContent
    by_cases hs : s = ""
    · subst hs; rfl
    · rw [if_neg (by simp [J.truthy, hs])]

theorem claim_C3_witness :
    extractThinkingContent (J.obj [("signature", J.str "AVSoXO==")]) =
      .ok (specResolve (J.obj [("signature", J.str "AVSoXO==")])) ∧
    specResolve (J.obj [("signature", J.str "AVSoXO==")]) = "AVSoXO==" ∧
    extractThinkingContent (J.str "bare") = .ok "bare" ∧
    pyB64DecodeUtf8 "AVSoXO==" = none :=
  ⟨claim_C3.1 (J.obj [("signature", J.str "AVSoXO==")]) rfl rfl, rfl,
   claim_C3.2.1 "bare", claim_C3.2.2 "AVSoXO==" rfl⟩

theorem IsLeafChain.isObj {j : J} {ks : List String} (h : IsLeafChain j ks) :
    j.isObj = true := by
  cases h <;> rfl

theorem isLeafChain_cons_iff (k : String) (v : J)
    (rest : List (String × J)) (ks : List String) :
    IsLeafChain (J.obj ((k, v) :: rest)) ks ↔
      (v = J.null ∧ ks = [k]) ∨
      (∃ ks', ks = k :: ks' ∧ IsLeafChain v ks') ∨
      IsLeafChain (J.obj rest) ks := by
  constructor
  · intro h
    cases h with
    | last hmem =>
      rcases List.mem_cons.mp hmem with heq | hmem'
      · obtain ⟨h1, h2⟩ := Prod.mk.injEq .. ▸ heq
        exact Or.inl ⟨h2.symm ▸ rfl, by rw [h1]⟩
      · exact Or.inr (Or.inr (IsLeafChain.last hmem'))
    | step hmem hch =>
      rcases List.mem_cons.mp hmem with heq | hmem'
      · obtain ⟨h1, h2⟩ := Prod.mk.injEq .. ▸ heq
        subst h1
        exact Or.inr (Or.inl ⟨_, rfl, h2 ▸ hch⟩)
      · exact Or.inr (Or.inr (IsLeafChain.step hmem' hch))
  · intro h
    rcases h with ⟨hv, hks⟩ | ⟨ks', hks, hch⟩ | h
    · subst hv; subst hks
      exact IsLeafChain.last (List.mem_cons_self _ _)
    · subst hks
      exact IsLeafChain.step (List.mem_cons_self _ _) hch
    · cases h with
      | last hmem => exact IsLeafChain.last (List.mem_cons_of_mem _ hmem)
      | step hmem hch => exact IsLeafChain.step (List.mem_cons_of_mem _ hmem) hch

theorem extractLayoutFields_mem (p : String) :
    ∀ (fs : List (String × J)) (cp : String),
      (p ∈ extractLayoutFields fs cp ↔
        ∃ ks, IsLeafChain (J.obj fs) ks ∧ p = pyJoinAux cp ks) := by
  intro fs cp
  induction fs, cp using extractLayoutFields.induct with
  | case1 cp =>
    constructor
    · intro h; rw [extractLayoutFields.eq_def] at h; simp at h
    · rintro ⟨ks, hch, _⟩
      cases hch with
      | last hmem => simp at hmem
      | step hmem _ => simp at hmem
  | case2 k v rest cp np hmatch ih =>
    rw [extractLayoutFields.eq_def]
    simp only [List.mem_append]
    constructor
    · intro h
      rcases h with h | h
      · cases v with
        | null =>
          simp at h
          exact ⟨[k], IsLeafChain.last (List.mem_cons_self _ _),
            by simp [pyJoinAux, h]⟩
        | obj fs' =>
          obtain ⟨ks', hch', hp'⟩ := hmatch.mp h
          exact ⟨k :: ks',
            IsLeafChain.step (List.mem_cons_self _ _) hch',
            by simpa [pyJoinAux] using hp'⟩
        | bool b2 => simp at h
        | num n2 => simp at h
        | str s2 => simp at h
        | arr xs => simp at h
      · obtain ⟨ks, hch, hp⟩ := ih.mp h
        refine ⟨ks, ?_, hp⟩
        rw [isLeafChain_cons_iff]
        exact Or.inr (Or.inr hch)
    · rintro ⟨ks, hch, hp⟩
      rw [isLeafChain_cons_iff] at hch
      rcases hch with ⟨hveq, hks⟩ | ⟨ks', hks, hch'⟩ | hch
      · subst hveq; subst hks
        exact Or.inl (by simp [pyJoinAux] at hp; simp [hp])
      · subst hks
        cases v with
        | obj fs' =>
          exact Or.inl (hmatch.mpr ⟨ks', hch', by simpa [pyJoinAux] using hp⟩)
        | null => exact absurd hch'.isObj (by simp [J.isObj])
        | bool b2 => exact absurd hch'.isObj (by simp [J.isObj])
        | num n2 => exact absurd hch'.isObj (by simp [J.isObj])
        | str s2 => exact absurd hch'.isObj (by simp [J.isObj])
        | arr xs => exact absurd hch'.isObj (by simp [J.isObj])
      · exact Or.inr (ih.mpr ⟨ks, hch, hp⟩)

theorem strAppend_ne_empty (cp x : String) (hcp : cp ≠ "") : cp ++ x ≠ "" := by
  intro h
  apply hcp
  cases cp with
  | mk l =>
    cases x with
    | mk l2 =>
      have hd : l ++ l2 = [] := congrArg String.data h
      have hl : l = [] := (List.append_eq_nil.mp hd).1
      rw [hl]

theorem pyJoinAux_ne :
    ∀ (ks : List String) (cp : String), cp ≠ "" →
      pyJoinAux cp ks = (if ks.isEmpty then cp else cp ++ "/" ++ joinSlash ks) := by
  intro ks
  induction ks with
  | nil => intro cp _; rfl
  | cons k ks ih =>
    intro cp hcp
    rw [show pyJoinAux cp (k :: ks) =
      pyJoinAux (if cp = "" then k else cp ++ "/" ++ k) ks from rfl]
    rw [if_neg hcp]
    rw [ih (cp ++ "/" ++ k) (strAppend_ne_empty _ _ (strAppend_ne_empty _ _ hcp))]
    cases ks with
    | nil => simp [joinSlash]
    | cons k2 ks2 =>
      simp only [List.isEmpty_cons, if_neg]
      rw [show joinSlash (k :: k2 :: ks2) = k ++ "/" ++ joinSlash (k2 :: ks2)
        from rfl]
      simp [String.append_assoc]

theorem pyJoin_first_nonempty (k : String) (ks : List String) (hk : k ≠ "") :
    pyJoin (k :: ks) = joinSlash (k :: ks) := by
  unfold pyJoin
  rw [show pyJoinAux "" (k :: ks) = pyJoinAux k ks from rfl]
  rw [pyJoinAux_ne ks k hk]
  cases ks with
  | nil => rfl
  | cons k2 ks2 => rfl

/-- Claim C9 (corrected): a project-tree snapshot stored as a JSON string and the same
snapshot already parsed yield identical extracted file lists, and each null leaf
yields the Python os.path style join of its ancestor keys; an empty accumulated
ancestor path contributes no slash separator, unlike a plain slash-join. -/
theorem claim_C9 :
    (∀ (s : String) (j : J), parseJson s = some j → j.isObj = true →
      layoutFiles (J.str s) = layoutFiles j) ∧
    (∀ (j : J) (p : String), p ∈ extractFilesFromLayout j "" ↔
      ∃ ks, IsLeafChain j ks ∧ p = pyJoin ks) ∧
    (∀ (k : String) (ks : List String), k ≠ "" →
      pyJoin (k :: ks) = joinSlash (k :: ks)) := by
  refine ⟨?_, ?_, pyJoin_first_nonempty⟩
  · intro s j hparse hobj
    cases j with
    | obj fs =>
      rw [show layoutFiles (J.str s) =
        (match parseJson s with
         | some ld => if ld.isObj then
             (extractFilesFromLayout ld "").map
               (fun f => { atype := "project", path := .str f : Attachment })
           else []
         | none => []) from rfl]
      rw [hparse]
      rfl
    | null => simp [J.isObj] at hobj
    | bool b2 => simp [J.isObj] at hobj
    | num n2 => simp [J.isObj] at hobj
    | str s2 => simp [J.isObj] at hobj
    | arr xs => simp [J.isObj] at hobj
  · intro j p
    cases j with
    | obj fs =>
      rw [show extractFilesFromLayout (J.obj fs) "" =
        extractLayoutFields fs "" from rfl]
      exact extractLayoutFields_mem p fs ""
    | null =>
      constructor
      · intro h; simp [extractFilesFromLayout.eq_def] at h
      · rintro ⟨ks, hch, _⟩; exact absurd hch.isObj (by simp [J.isObj])
    | bool b2 =>
      constructor
      · intro h; simp [extractFilesFromLayout.eq_def] at h
      · rintro ⟨ks, hch, _⟩; exact absurd hch.isObj (by simp [J.isObj])
    | num n2 =>
      constructor
      · intro h; simp [extractFilesFromLayout.eq_def] at h
      · rintro ⟨ks, hch, _⟩; exact absurd hch.isObj (by simp [J.isObj])
    | str s2 =>
      constructor
      · intro h; simp [extractFilesFromLayout.eq_def] at h
      · rintro ⟨ks, hch, _⟩; exact absurd hch.isObj (by simp [J.isObj])
    | arr xs =>
      constructor
      · intro h; simp [extractFilesFromLayout.eq_def] at h
      · rintro ⟨ks, hch, _⟩; exact absurd hch.isObj (by simp [J.isObj])

theorem claim_C9_counterexample :
    extractFilesFromLayout (J.obj [("", J.obj [("a", J.null)])]) "" = ["a"] ∧
    IsLeafChain (J.obj [("", J.obj [("a", J.null)])]) ["", "a"] ∧
    joinSlash ["", "a"] = "/a" ∧ ("a" : String) ≠ "/a" := by
  refine ⟨?_, IsLeafChain.step (List.mem_cons_self _ _)
     (IsLeafChain.last (List.mem_cons_self _ _)), rfl, by decide⟩
  rw [extractFilesFromLayout.eq_def]
  show extractLayoutFields [("", J.obj [("a", J.null)])] "" = ["a"]
  rw [extractLayoutFields.eq_def]
  show extractLayoutFields [("a", J.null)] "" ++ extractLayoutFields [] "" = ["a"]
  rw [extractLayoutFields.eq_def, extractLayoutFields.eq_def]
  show (["a"] ++ extractLayoutFields [] "") ++ [] = ["a"]
  rw [extractLayoutFields.eq_def]
  rfl

theorem claim_C9_witness :
    layoutFiles (J.str "\x7b\"a\":\x7b\"b\":null\x7d\x7d") =
      layoutFiles (J.obj [("a", J.obj [("b", J.null)])]) ∧
    "a/b" ∈ extractFilesFromLayout (J.obj [("a", J.obj [("b", J.null)])]) "" ∧
    pyJoin ["a", "b"] = joinSlash ["a", "b"] :=
  ⟨claim_C9.1 "\x7b\"a\":\x7b\"b\":null\x7d\x7d" (J.obj [("a", J.obj [("b", J.null)])])
     rfl rfl,
   (claim_C9.2.1 (J.obj [("a", J.obj [("b", J.null)])]) "a/b").mpr
     ⟨["a", "b"],
      IsLeafChain.step (List.mem_cons_self _ _)
        (IsLeafChain.last (List.mem_cons_self _ _)), rfl⟩,
   claim_C9.2.2 "a" ["b"] (by decide)⟩

theorem find?_and_longOnly (s : Store) (p : Row → Bool) :
    (longOnly s).find? (fun r => p r && rowLong r) =
      s.find? (fun r => p r && rowLong r) := by
  induction s with
  | nil => rfl
  | cons r t ih =>
    unfold longOnly at ih ⊢
    rw [List.filter_cons]
    cases hl : rowLong r with
    | true =>
      simp only [if_pos rfl, List.find?_cons]
      cases hp : p r with
      | true => simp [hp, hl]
      | false => simp [hp, hl, ih]
    | false =>
      simp only [Bool.false_eq_true, if_neg, List.find?_cons]
      rw [show (p r && rowLong r) = false from by simp [hl]]
      simp only [Bool.false_eq_true, if_neg]
      exact ih

theorem filter_and_longOnly (s : Store) (p : Row → Bool) :
    (longOnly s).filter (fun r => p r && rowLong r) =
      s.filter (fun r => p r && rowLong r) := by
  induction s with
  | nil => rfl
  | cons r t ih =>
    unfold longOnly at ih ⊢
    rw [List.filter_cons]
    cases hl : rowLong r with
    | true =>
      simp only [if_pos rfl, List.filter_cons]
      cases hp : p r with
      | true => simp [hp, hl, ih]
      | false => simp [hp, hl, ih]
    | false =>
      simp only [Bool.false_eq_true, if_neg, List.filter_cons]
      rw [show (p r && rowLong r) = false from by simp [hl]]
      simp only [Bool.false_eq_true, if_neg]
      exact ih

theorem qValueByKey_longOnly (s : Store) (k : String) :
    qValueByKey (longOnly s) k = qValueByKey s k := by
  unfold qValueByKey
  rw [find?_and_longOnly s (fun r => r.key == k)]

theorem qRowByKey_longOnly (s : Store) (k : String) :
    qRowByKey (longOnly s) k = qRowByKey s k := by
  unfold qRowByKey
  rw [find?_and_longOnly s (fun r => r.key == k)]

theorem qByLike_longOnly (s : Store) (pre : String) :
    qByLike (longOnly s) pre = qByLike s pre := by
  unfold qByLike
  rw [filter_and_longOnly s (fun r => sqlLike pre r.key)]

/-- Claim C5: records whose serialized value length is at most 100 bytes are invisible
to every core operation: assembly, full-dialog extraction, traced search and context
windows are unchanged when all such records are removed from the store. -/
theorem claim_C5 (s : Store) (cid bid : String) (r : Nat)
    (composers : List Composer) (q : String) (cs : Bool) (pf : Option String)
    (limit : Nat) :
    getDialogMessages (longOnly s) cid = getDialogMessages s cid ∧
    getFullDialog (longOnly s) cid = getFullDialog s cid ∧
    searchAllTraced (longOnly s) composers q cs pf limit =
      searchAllTraced s composers q cs pf limit ∧
    getDialogContext (longOnly s) cid bid r = getDialogContext s cid bid r := by
  refine ⟨?_, ?_, ?_, ?_⟩
  · unfold getDialogMessages
    simp only [qValueByKey_longOnly, qRowByKey_longOnly, qByLike_longOnly]
  · unfold getFullDialog
    simp only [qValueByKey_longOnly, qRowByKey_longOnly, qByLike_longOnly]
  · unfold searchAllTraced
    simp only [qByLike_longOnly]
  · have hstep : ctxStep (longOnly s) cid bid = ctxStep s cid bid := by
      funext acc bId
      unfold ctxStep
      rw [qValueByKey_longOnly]
    unfold getDialogContext
    simp only [qValueByKey_longOnly, hstep]

theorem searchScan_cons (lk : List (J × Composer)) (q : String) (cs : Bool)
    (limit : Nat) (r : Row) (rest : List Row) (acc : List SMatch)
    (tr : List String) :
    searchScan lk q cs limit (r :: rest) acc tr =
    (match pySplit r.key ':' with
    | _ :: cid :: _ =>
      (match lookupFind lk cid with
       | none => searchScan lk q cs limit rest acc tr
       | some comp =>
         if !patSearch cs q r.value then searchScan lk q cs limit rest acc tr
         else
           match parseJson r.value with
           | none => searchScan lk q cs limit rest acc (tr ++ [r.key])
           | some b =>
             match searchInBubble b q cs with
             | .error e => .error e
             | .ok bms =>
               if bms.isEmpty then
                 searchScan lk q cs limit rest acc (tr ++ [r.key])
               else
                 let acc' := acc ++ bms.map (fun m => enrich m b cid comp)
                 if limit ≤ acc'.length then .ok (acc', tr ++ [r.key])
                 else searchScan lk q cs limit rest acc' (tr ++ [r.key]))
    | _ => searchScan lk q cs limit rest acc tr) := rfl

theorem searchScanNoPre_cons (lk : List (J × Composer)) (q : String)
    (cs : Bool) (limit : Nat) (r : Row) (rest : List Row) (acc : List SMatch)
    (tr : List String) :
    searchScanNoPre lk q cs limit (r :: rest) acc tr =
    (match pySplit r.key ':' with
    | _ :: cid :: _ =>
      (match lookupFind lk cid with
       | none => searchScanNoPre lk q cs limit rest acc tr
       | some comp =>
         match parseJson r.value with
         | none => searchScanNoPre lk q cs limit rest acc (tr ++ [r.key])
         | some b =>
           match searchInBubble b q cs with
           | .error e => .error e
           | .ok bms =>
             if bms.isEmpty then
               searchScanNoPre lk q cs limit rest acc (tr ++ [r.key])
             else
               let acc' := acc ++ bms.map (fun m => enrich m b cid comp)
               if limit ≤ acc'.length then .ok (acc', tr ++ [r.key])
               else searchScanNoPre lk q cs limit rest acc' (tr ++ [r.key]))
    | _ => searchScanNoPre lk q cs limit rest acc tr) := rfl

theorem rowFieldMatchFree_ok (q : String) (cs : Bool) (r : Row) (b : J)
    (bms : List BMatch) (hp : parseJson r.value = some b)
    (hsib : searchInBubble b q cs = .ok bms)
    (hr : rowFieldMatchFree q cs r = true) : bms = [] := by
  unfold rowFieldMatchFree at hr
  rw [hp] at hr
  replace hr : (match searchInBubble b q cs with
    | Except.ok [] => true
    | _ => false) = true := hr
  rw [hsib] at hr
  cases bms with
  | nil => rfl
  | cons m ms => simp at hr

theorem rowFieldMatchFree_no_error (q : String) (cs : Bool) (r : Row) (b : J)
    (e : Unit) (hp : parseJson r.value = some b)
    (hsib : searchInBubble b q cs = .error e)
    (hr : rowFieldMatchFree q cs r = true) : False := by
  unfold rowFieldMatchFree at hr
  rw [hp] at hr
  replace hr : (match searchInBubble b q cs with
    | Except.ok [] => true
    | _ => false) = true := hr
  rw [hsib] at hr
  simp at hr

theorem searchScan_noPre_agree (lk : List (J × Composer)) (q : String)
    (cs : Bool) (limit : Nat) :
    ∀ (rows : List Row) (acc : List SMatch) (tr1 tr2 : List String),
      rows.all (fun r => patSearch cs q r.value || rowFieldMatchFree q cs r) =
        true →
      (searchScan lk q cs limit rows acc tr1).map Prod.fst =
        (searchScanNoPre lk q cs limit rows acc tr2).map Prod.fst := by
  intro rows
  induction rows with
  | nil => intro acc tr1 tr2 _; rfl
  | cons r rest ih =>
    intro acc tr1 tr2 hall
    rw [List.all_cons, Bool.and_eq_true] at hall
    obtain ⟨hr, hrest⟩ := hall
    rw [searchScan_cons, searchScanNoPre_cons]
    cases hsplit : pySplit r.key ':' with
    | nil => exact ih acc tr1 tr2 hrest
    | cons p0 ptail =>
      cases ptail with
      | nil => exact ih acc tr1 tr2 hrest
      | cons cid prest =>
        simp only []
        cases hlk : lookupFind lk cid with
        | none => exact ih acc tr1 tr2 hrest
        | some comp =>
          simp only []
          by_cases hpre : patSearch cs q r.value = true
          · rw [if_neg (by simp [hpre])]
            cases hp : parseJson r.value with
            | none => exact ih acc (tr1 ++ [r.key]) (tr2 ++ [r.key]) hrest
            | some b =>
              simp only []
              cases hsib : searchInBubble b q cs with
              | error e => rfl
              | ok bms =>
                simp only []
                cases hbe : bms.isEmpty with
                | true =>
                  rw [if_pos rfl, if_pos rfl]
                  exact ih acc (tr1 ++ [r.key]) (tr2 ++ [r.key]) hrest
                | false =>
                  simp only [hbe, Bool.false_eq_true, if_false]
                  by_cases hlim : limit ≤
                      (acc ++ List.map (fun m => enrich m b cid comp) bms).length
                  · rw [if_pos hlim, if_pos hlim]
                    rfl
                  · rw [if_neg hlim, if_neg hlim]
                    exact ih _ (tr1 ++ [r.key]) (tr2 ++ [r.key]) hrest
          · rw [if_pos (by simp [hpre])]
            rw [Bool.or_eq_true] at hr
            rcases hr with hr | hr
            · exact absurd hr hpre
            · cases hp : parseJson r.value with
              | none => exact ih acc tr1 (tr2 ++ [r.key]) hrest
              | some b =>
                cases hsib : searchInBubble b q cs with
                | error e =>
                  exact (rowFieldMatchFree_no_error q cs r b e hp hsib hr).elim
                | ok bms =>
                  have hbms := rowFieldMatchFree_ok q cs r b bms hp hsib hr
                  subst hbms
                  simp only []
                  rw [hsib]
                  exact ih acc tr1 (tr2 ++ [r.key]) hrest

theorem searchScan_trace (lk : List (J × Composer)) (q : String) (cs : Bool)
    (limit : Nat) :
    ∀ (rows : List Row) (acc : List SMatch) (tr : List String)
      (res : List SMatch) (tr' : List String),
      searchScan lk q cs limit rows acc tr = .ok (res, tr') →
      ∀ k ∈ tr', k ∈ tr ∨ ∃ rr, rr ∈ rows ∧ rr.key = k ∧
        patSearch cs q rr.value = true := by
  intro rows
  induction rows with
  | nil =>
    intro acc tr res tr' h k hk
    rw [show searchScan lk q cs limit [] acc tr = .ok (acc, tr) from rfl] at h
    simp only [Except.ok.injEq, Prod.mk.injEq] at h
    exact Or.inl (h.2 ▸ hk)
  | cons r rest ih =>
    intro acc tr res tr' h k hk
    have lift : ∀ (tr0 : List String),
        (k ∈ tr0 ∨ ∃ rr, rr ∈ rest ∧ rr.key = k ∧
          patSearch cs q rr.value = true) →
        (k ∈ tr0 ∨ ∃ rr, rr ∈ r :: rest ∧ rr.key = k ∧
          patSearch cs q rr.value = true) := by
      intro tr0 hcase
      rcases hcase with hm | ⟨rr, hmem, hkk, hpp⟩
      · exact Or.inl hm
      · exact Or.inr ⟨rr, List.mem_cons_of_mem _ hmem, hkk, hpp⟩
    have step : ∀ (hpre : patSearch cs q r.value = true),
        k ∈ tr ++ [r.key] →
        k ∈ tr ∨ ∃ rr, rr ∈ r :: rest ∧ rr.key = k ∧
          patSearch cs q rr.value = true := by
      intro hpre hm
      rcases List.mem_append.mp hm with hm | hm
      · exact Or.inl hm
      · exact Or.inr ⟨r, List.mem_cons_self _ _,
          (List.mem_singleton.mp hm).symm, hpre⟩
    rw [searchScan_cons] at h
    split at h
    · split at h
      · exact lift tr (ih acc tr res tr' h k hk)
      · rename_i comp hlk
        split at h
        · exact lift tr (ih acc tr res tr' h k hk)
        · rename_i hprebool
          have hpre : patSearch cs q r.value = true := by
            simpa using hprebool
          split at h
          · rcases ih acc (tr ++ [r.key]) res tr' h k hk with hm | hm
            · exact step hpre hm
            · exact lift _ (Or.inr hm)
          · split at h
            · exact absurd h (by simp)
            · split at h
              · rcases ih acc (tr ++ [r.key]) res tr' h k hk with hm | hm
                · exact step hpre hm
                · exact lift _ (Or.inr hm)
              · dsimp only [] at h
                split at h
                · simp only [Except.ok.injEq, Prod.mk.injEq] at h
                  exact step hpre (h.2 ▸ hk)
                · rcases ih _ (tr ++ [r.key]) res tr' h k hk with hm | hm
                  · exact step hpre hm
                  · exact lift _ (Or.inr hm)
    · exact lift tr (ih acc tr res tr' h k hk)

theorem searchScan_scanned (lk : List (J × Composer)) (q : String) (cs : Bool)
    (limit : Nat) :
    ∀ (rows : List Row) (acc : List SMatch) (tr : List String)
      (res : List SMatch) (tr' : List String),
      searchScan lk q cs limit rows acc tr = .ok (res, tr') →
      ∃ p rest2 xs, rows = p ++ rest2 ∧
        List.Forall₂ (fun rr ms => rowMatches lk q cs rr = .ok ms) p xs ∧
        res = acc ++ xs.flatten ∧ (limit ≤ res.length ∨ rest2 = []) := by
  intro rows
  induction rows with
  | nil =>
    intro acc tr res tr' h
    rw [show searchScan lk q cs limit [] acc tr = .ok (acc, tr) from rfl] at h
    simp only [Except.ok.injEq, Prod.mk.injEq] at h
    exact ⟨[], [], [], rfl, List.Forall₂.nil, by simp [h.1.symm], Or.inr rfl⟩
  | cons r rest ih =>
    intro acc tr res tr' h
    rw [searchScan_cons] at h
    split at h
    · rename_i p0 cid prest hsplit
      split at h
      · rename_i hlk
        obtain ⟨p', rest2', xs', hsp, hmap, hres, hdisj⟩ :=
          ih acc tr res tr' h
        have hrm : rowMatches lk q cs r = .ok [] := by
          simp [rowMatches, hsplit, hlk]
        exact ⟨r :: p', rest2', [] :: xs', by simp [hsp],
          List.Forall₂.cons hrm hmap, by simpa using hres,
          hdisj⟩
      · rename_i comp hlk
        split at h
        · rename_i hprebool
          have hpre : patSearch cs q r.value = false := by
            simpa using hprebool
          obtain ⟨p', rest2', xs', hsp, hmap, hres, hdisj⟩ :=
            ih acc tr res tr' h
          have hrm : rowMatches lk q cs r = .ok [] := by
            simp [rowMatches, hsplit, hlk, hpre]
          exact ⟨r :: p', rest2', [] :: xs', by simp [hsp],
            List.Forall₂.cons hrm hmap, by simpa using hres,
            hdisj⟩
        · rename_i hprebool
          have hpre : patSearch cs q r.value = true := by
            simpa using hprebool
          split at h
          · rename_i hp
            obtain ⟨p', rest2', xs', hsp, hmap, hres, hdisj⟩ :=
              ih acc (tr ++ [r.key]) res tr' h
            have hrm : rowMatches lk q cs r = .ok [] := by
              simp [rowMatches, hsplit, hlk, hpre, hp]
            exact ⟨r :: p', rest2', [] :: xs', by simp [hsp],
              List.Forall₂.cons hrm hmap, by simpa using hres,
              hdisj⟩
          · rename_i b hp
            split at h
            · exact absurd h (by simp)
            · rename_i bms hsib
              have hrm : rowMatches lk q cs r =
                  .ok (bms.map (fun m => enrich m b cid comp)) := by
                simp [rowMatches, hsplit, hlk, hpre, hp, hsib, Except.map]
              split at h
              · rename_i hbe
                have hbms : bms = [] := by simpa using hbe
                subst hbms
                obtain ⟨p', rest2', xs', hsp, hmap, hres, hdisj⟩ :=
                  ih acc (tr ++ [r.key]) res tr' h
                exact ⟨r :: p', rest2', [] :: xs', by simp [hsp],
                  List.Forall₂.cons hrm hmap, by simpa using hres,
                  hdisj⟩
              · dsimp only [] at h
                split at h
                · rename_i hlim
                  simp only [Except.ok.injEq, Prod.mk.injEq] at h
                  refine ⟨[r], rest, [bms.map (fun m => enrich m b cid comp)],
                    rfl, List.Forall₂.cons hrm List.Forall₂.nil,
                    by simp [h.1.symm], Or.inl ?_⟩
                  rw [← h.1]
                  simpa using hlim
                · rename_i hlim
                  obtain ⟨p', rest2', xs', hsp, hmap, hres, hdisj⟩ :=
                    ih _ (tr ++ [r.key]) res tr' h
                  refine ⟨r :: p', rest2',
                    bms.map (fun m => enrich m b cid comp) :: xs',
                    by simp [hsp], List.Forall₂.cons hrm hmap,
                    ?_, hdisj⟩
                  rw [hres]
                  simp
    · rename_i hsplit
      obtain ⟨p', rest2', xs', hsp, hmap, hres, hdisj⟩ := ih acc tr res tr' h
      have hrm : rowMatches lk q cs r = .ok [] := by
        unfold rowMatches
        cases hq : pySplit r.key ':' with
        | nil => rfl
        | cons a tl =>
          cases tl with
          | nil => rfl
          | cons a2 tl2 => exact (hsplit a a2 tl2 hq).elim
      exact ⟨r :: p', rest2', [] :: xs', by simp [hsp],
        List.Forall₂.cons hrm hmap, by simpa using hres, hdisj⟩

theorem searchAll_eq (s : Store) (composers : List Composer) (q : String)
    (cs : Bool) (pf : Option String) (limit : Nat) :
    searchAll s composers q cs pf limit =
      (searchScan (buildLookup composers pf) q cs limit
        (qByLike s "bubbleId:") [] []).map
        (fun pr => (List.insertionSort smatchDescRel pr.1).take limit) := by
  unfold searchAll searchAllTraced
  cases hh : searchScan (buildLookup composers pf) q cs limit
      (qByLike s "bubbleId:") [] [] with
  | error e => simp [hh, Except.map, Bind.bind, Except.bind]
  | ok pr =>
    obtain ⟨res0, tr0⟩ := pr
    simp [hh, Except.map, Bind.bind, Except.bind]

theorem searchAllNoPre_eq (s : Store) (composers : List Composer) (q : String)
    (cs : Bool) (pf : Option String) (limit : Nat) :
    searchAllNoPre s composers q cs pf limit =
      (searchScanNoPre (buildLookup composers pf) q cs limit
        (qByLike s "bubbleId:") [] []).map
        (fun pr => (List.insertionSort smatchDescRel pr.1).take limit) := by
  unfold searchAllNoPre
  cases hh : searchScanNoPre (buildLookup composers pf) q cs limit
      (qByLike s "bubbleId:") [] [] with
  | error e => simp [hh, Except.map, Bind.bind, Except.bind]
  | ok pr =>
    obtain ⟨res0, tr0⟩ := pr
    simp [hh, Except.map, Bind.bind, Except.bind]

/-- Claim C4 (corrected): search only decodes records that pass the raw-bytes
substring pre-check, and the pre-check preserves the result set only on corpora where
every field-matching record also matches on its raw serialized bytes; JSON escaping
can make a field match while the raw bytes do not, changing the result set. -/
theorem claim_C4 (s : Store) (composers : List Composer) (q : String)
    (cs : Bool) (pf : Option String) (limit : Nat) :
    ((qByLike s "bubbleId:").all
        (fun r => patSearch cs q r.value || rowFieldMatchFree q cs r) = true →
      searchAll s composers q cs pf limit =
        searchAllNoPre s composers q cs pf limit) ∧
    (∀ res tr, searchAllTraced s composers q cs pf limit = .ok (res, tr) →
      ∀ k ∈ tr, ∃ rr, rr ∈ qByLike s "bubbleId:" ∧ rr.key = k ∧
        patSearch cs q rr.value = true) := by
  constructor
  · intro hall
    have hagree := searchScan_noPre_agree (buildLookup composers pf) q cs limit
      (qByLike s "bubbleId:") [] [] [] hall
    rw [searchAll_eq, searchAllNoPre_eq]
    cases h1 : searchScan (buildLookup composers pf) q cs limit
        (qByLike s "bubbleId:") [] [] with
    | error e =>
      cases h2 : searchScanNoPre (buildLookup composers pf) q cs limit
          (qByLike s "bubbleId:") [] [] with
      | error e2 => rfl
      | ok pr2 => rw [h1, h2] at hagree; exact absurd hagree (by simp [Except.map])
    | ok pr1 =>
      cases h2 : searchScanNoPre (buildLookup composers pf) q cs limit
          (qByLike s "bubbleId:") [] [] with
      | error e2 => rw [h1, h2] at hagree; exact absurd hagree (by simp [Except.map])
      | ok pr2 =>
        rw [h1, h2] at hagree
        simp only [Except.map, Except.ok.injEq] at hagree ⊢
        rw [hagree]
  · intro res tr htr k hk
    unfold searchAllTraced at htr
    dsimp only [] at htr
    cases hscan : searchScan (buildLookup composers pf) q cs limit
        (qByLike s "bubbleId:") [] [] with
    | error e =>
      rw [hscan] at htr
      exact absurd htr (by simp [Bind.bind, Except.bind])
    | ok pr =>
      obtain ⟨res0, tr0⟩ := pr
      rw [hscan] at htr
      simp only [Bind.bind, Except.bind, Except.ok.injEq, Prod.mk.injEq] at htr
      have hk0 : k ∈ tr0 := htr.2 ▸ hk
      rcases searchScan_trace (buildLookup composers pf) q cs limit
        (qByLike s "bubbleId:") [] [] res0 tr0 hscan k hk0 with hm | hm
      · exact absurd hm (by simp)
      · exact hm

/-- Claim C7: search stops accumulating matches once at least limit matches have been
collected, so scan order determines which matches exist before the cap, and it returns
at most limit matches sorted by dialog last-updated timestamp descending. -/
theorem claim_C7 (s : Store) (composers : List Composer) (q : String)
    (cs : Bool) (pf : Option String) (limit : Nat) (res : List SMatch)
    (hok : searchAll s composers q cs pf limit = .ok res) :
    res.length ≤ limit ∧ List.Sorted smatchDescRel res ∧
    ∃ p rest2 xs, qByLike s "bubbleId:" = p ++ rest2 ∧
      List.Forall₂
        (fun rr ms => rowMatches (buildLookup composers pf) q cs rr = .ok ms)
        p xs ∧
      res = (List.insertionSort smatchDescRel xs.flatten).take limit ∧
      (limit ≤ xs.flatten.length ∨ rest2 = []) := by
  rw [searchAll_eq] at hok
  cases hscan : searchScan (buildLookup composers pf) q cs limit
      (qByLike s "bubbleId:") [] [] with
  | error e => rw [hscan] at hok; exact absurd hok (by simp [Except.map])
  | ok pr =>
    obtain ⟨res0, tr0⟩ := pr
    rw [hscan] at hok
    simp only [Except.map, Except.ok.injEq] at hok
    obtain ⟨p, rest2, xs, hsp, hmap, hres, hdisj⟩ :=
      searchScan_scanned (buildLookup composers pf) q cs limit
        (qByLike s "bubbleId:") [] [] res0 tr0 hscan
    simp only [List.nil_append] at hres
    subst hres
    refine ⟨?_, ?_, p, rest2, xs, hsp, hmap, hok.symm, hdisj⟩
    · rw [← hok]
      simp [List.length_take]
    · rw [← hok]
      exact (List.sorted_insertionSort smatchDescRel _).sublist
        (List.take_sublist _ _)

set_option maxRecDepth 20000 in
theorem claim_C4_counterexample :
    searchAll store4 [comp4] "\"hi\"" true none 50 = .ok [] ∧
    (searchAllNoPre store4 [comp4] "\"hi\"" true none 50).map
      (List.map SMatch.mfield) = .ok ["text"] ∧
    searchAll store4 [comp4] "\"hi\"" true none 50 ≠
      searchAllNoPre store4 [comp4] "\"hi\"" true none 50 := by
  refine ⟨rfl, rfl, ?_⟩
  intro h
  have h2 : (searchAllNoPre store4 [comp4] "\"hi\"" true none 50).map
      (List.map SMatch.mfield) = .ok ["text"] := rfl
  rw [← h] at h2
  have h3 : (searchAll store4 [comp4] "\"hi\"" true none 50).map
      (List.map SMatch.mfield) = .ok [] := rfl
  rw [h3] at h2
  simp at h2

set_option maxRecDepth 20000 in
theorem claim_C4_witness :
    searchAll store4w [comp4w] "hello" false none 50 =
      searchAllNoPre store4w [comp4w] "hello" false none 50 ∧
    (searchAll store4w [comp4w] "hello" false none 50).map
      (List.map SMatch.mfield) = .ok ["text"] :=
  ⟨(claim_C4 store4w [comp4w] "hello" false none 50).1 rfl, rfl⟩

set_option maxRecDepth 20000 in
theorem claim_C7_witness :
    ((searchAll store7 [comp7a, comp7b] "hello" false none 1).toOption.getD
      []).length ≤ 1 ∧
    List.Sorted smatchDescRel
      ((searchAll store7 [comp7a, comp7b] "hello" false none 1).toOption.getD
        []) ∧
    (searchAll store7 [comp7a, comp7b] "hello" false none 1).map
      (List.map SMatch.composerId) = .ok ["c7a"] :=
  ⟨(claim_C7 store7 [comp7a, comp7b] "hello" false none 1 _ rfl).1,
   (claim_C7 store7 [comp7a, comp7b] "hello" false none 1 _ rfl).2.1,
   rfl⟩
